import Mathlib

/-!
# 3D chess scene: model loading, piece records and the frame loop

A shallow embedding of `common/objloader.{hpp,cpp}`, `common/controls.cpp` and the
frame loop of `Lab3/src/main.cpp`.

Conventions of the embedding.

* Scalars (`float`, `double`) are an arbitrary type `α`; each definition asks only for
  the operations it uses.  The placement code of the frame loop asks for operations
  and no law, so it runs over `Binary32`, a model of the arithmetic of `float`, as
  well as over a field.  The camera code of `controls.cpp`, and `frame` which calls
  it, are stated over an ordered field; statements about real arithmetic instantiate
  `α := ℝ`.
* `unsigned int` and `unsigned short` values are natural numbers reduced modulo
  `2 ^ 32` and `2 ^ 16` where the program stores or subtracts them.
* A read outside an array, or a write past the end of a buffer, is undefined
  behaviour; a function that performs one has no result, which is `none` at the
  outermost `Option`.
* Calls into libc, Assimp, GLFW, GLM's trigonometry and the texture loader are
  parameters of the definitions that make them; text written to `stdout` and
  `stderr` is not modelled.
-/

namespace ChessGame

/-! ## Vectors -/

/-- The type `glm::vec2`. -/
structure Vec2 (α : Type) where
  x : α
  y : α
deriving DecidableEq, Repr

/-- The type `glm::vec3` (also used for `aiVector3D`). -/
structure Vec3 (α : Type) where
  x : α
  y : α
  z : α
deriving DecidableEq, Repr

/-- Two to the power 32: the number of values of an `unsigned int`. -/
def UINT_RANGE : Nat := 4294967296

/-- Two to the power 16: the number of values of an `unsigned short`. -/
def USHORT_RANGE : Nat := 65536

/-- Conversion of a scanned `int` to the `unsigned int` variable that receives it. -/
def toUnsigned (i : Int) : Nat := (i % 4294967296).toNat

/-- The expression `index - 1` on an `unsigned int`. -/
def pred32 (index : Nat) : Nat := (index + 4294967295) % 4294967296

/-! ## `loadOBJ` -/

/-- What one pass of the `while (1)` loop of `loadOBJ` reads from the file: the word
stored in `lineHeader` by `fscanf(file, "%s", lineHeader)`, and what the scan that
follows it leaves behind.  `x y z` are the floats in the scanned `glm::vec3`
(a `vt` line uses `x` and `y`); `matched` is the return value of the nine-integer
scan of a face line, and the three triples are the integers it read.  The word may
have any length: whether it fits the 128 bytes of `lineHeader` is tested by
`readLoop`. -/
structure ObjLine (α : Type) where
  lineHeader : String
  x : α
  y : α
  z : α
  matched : Int
  vertexIndex : Int × Int × Int
  uvIndex : Int × Int × Int
  normalIndex : Int × Int × Int

/-- The six local vectors of `loadOBJ`. -/
structure ObjTemps (α : Type) where
  vertexIndices : List Nat
  uvIndices : List Nat
  normalIndices : List Nat
  temp_vertices : List (Vec3 α)
  temp_uvs : List (Vec2 α)
  temp_normals : List (Vec3 α)

/-- The three output vectors of `loadOBJ`. -/
structure ObjOut (α : Type) where
  out_vertices : List (Vec3 α)
  out_uvs : List (Vec2 α)
  out_normals : List (Vec3 α)
deriving DecidableEq, Repr

/-- The local vectors as declared: all empty. -/
def ObjTemps.empty {α : Type} : ObjTemps α := ⟨[], [], [], [], [], []⟩

/-- The word fits the buffer `char lineHeader[128]`: `fscanf(file, "%s", lineHeader)`
stores the bytes of the word and a terminating null, so at most 127 bytes fit. -/
def fitsHeader (word : String) : Prop := word.utf8ByteSize < 128

instance (word : String) : Decidable (fitsHeader word) :=
  inferInstanceAs (Decidable (word.utf8ByteSize < 128))

/-- How the reading loop of `loadOBJ` ends: `overflow` when a word is written past
the end of `lineHeader` (undefined behaviour), `scanFailed` at the `return false` of
a face line whose scan does not match nine integers, and `endOfFile t` when the
file is exhausted, `t` being the local vectors at that point. -/
inductive ReadOutcome (α : Type) where
  | overflow
  | scanFailed
  | endOfFile (t : ObjTemps α)

/-- The reading loop of `loadOBJ` (`while (1) { ... }`), over the lines still to be
read.  Each pass first stores the word in `lineHeader`, which overflows when the
word does not fit, and then compares it with `v`, `vt`, `vn` and `f`. -/
def readLoop {α : Type} [Neg α] : List (ObjLine α) → ObjTemps α → ReadOutcome α
  | [], t => .endOfFile t
  | l :: rest, t =>
    if ¬ fitsHeader l.lineHeader then .overflow
    else if l.lineHeader = "v" then
      readLoop rest { t with temp_vertices := t.temp_vertices ++ [⟨l.x, l.y, l.z⟩] }
    else if l.lineHeader = "vt" then
      readLoop rest { t with temp_uvs := t.temp_uvs ++ [⟨l.x, -l.y⟩] }
    else if l.lineHeader = "vn" then
      readLoop rest { t with temp_normals := t.temp_normals ++ [⟨l.x, l.y, l.z⟩] }
    else if l.lineHeader = "f" then
      if l.matched ≠ 9 then .scanFailed
      else
        readLoop rest { t with
          vertexIndices := t.vertexIndices ++
            [toUnsigned l.vertexIndex.1, toUnsigned l.vertexIndex.2.1,
              toUnsigned l.vertexIndex.2.2]
          uvIndices := t.uvIndices ++
            [toUnsigned l.uvIndex.1, toUnsigned l.uvIndex.2.1, toUnsigned l.uvIndex.2.2]
          normalIndices := t.normalIndices ++
            [toUnsigned l.normalIndex.1, toUnsigned l.normalIndex.2.1,
              toUnsigned l.normalIndex.2.2] }
    else readLoop rest t

/-- The loop `for (unsigned int i = 0; i < vertexIndices.size(); i++)` of `loadOBJ`,
from counter `i` with `n` passes left.  `none` is a read outside one of the
vectors. -/
def fillLoop {α : Type} (t : ObjTemps α) : Nat → Nat → ObjOut α → Option (ObjOut α)
  | 0, _, out => some out
  | n + 1, i, out => do
    let vertexIndex ← t.vertexIndices[i]?
    let uvIndex ← t.uvIndices[i]?
    let normalIndex ← t.normalIndices[i]?
    let vertex ← t.temp_vertices[pred32 vertexIndex]?
    let uv ← t.temp_uvs[pred32 uvIndex]?
    let normal ← t.temp_normals[pred32 normalIndex]?
    fillLoop t n (i + 1)
      { out_vertices := out.out_vertices ++ [vertex]
        out_uvs := out.out_uvs ++ [uv]
        out_normals := out.out_normals ++ [normal] }

/-- The function `loadOBJ`.  `fopen path` is the file as the scanner reads it, or
`none` when it cannot be opened.  The result is `none` when the run writes past the
end of `lineHeader`, reads outside a vector, or never leaves the second loop (its
counter is an `unsigned int`, which cannot reach a size of `2 ^ 32` or more);
otherwise it is the returned `bool` together with the output vectors. -/
def loadOBJ {α : Type} [Neg α] (fopen : String → Option (List (ObjLine α)))
    (path : String) (out : ObjOut α) : Option (Bool × ObjOut α) :=
  match fopen path with
  | none => some (false, out)
  | some file =>
    match readLoop file ObjTemps.empty with
    | .overflow => none
    | .scanFailed => some (false, out)
    | .endOfFile t =>
      if t.vertexIndices.length < UINT_RANGE then
        (fillLoop t t.vertexIndices.length 0 out).map (fun o => (true, o))
      else none

/-! ### The file as the claims describe it -/

/-- The face lines of a file. -/
def faceLines {α : Type} (file : List (ObjLine α)) : List (ObjLine α) :=
  file.filter (fun l => l.lineHeader = "f")

/-- The positions given by the `v` lines, in file order. -/
def vLines {α : Type} (file : List (ObjLine α)) : List (Vec3 α) :=
  (file.filter (fun l => l.lineHeader = "v")).map (fun l => ⟨l.x, l.y, l.z⟩)

/-- The coordinates `(u, v)` given by the `vt` lines, in file order. -/
def vtLines {α : Type} (file : List (ObjLine α)) : List (Vec2 α) :=
  (file.filter (fun l => l.lineHeader = "vt")).map (fun l => ⟨l.x, l.y⟩)

/-- The normals given by the `vn` lines, in file order. -/
def vnLines {α : Type} (file : List (ObjLine α)) : List (Vec3 α) :=
  (file.filter (fun l => l.lineHeader = "vn")).map (fun l => ⟨l.x, l.y, l.z⟩)

/-- One corner of a face: its vertex, uv and normal index as stored. -/
structure Corner where
  vertexIndex : Nat
  uvIndex : Nat
  normalIndex : Nat
deriving DecidableEq, Repr

/-- The three corners of a face line. -/
def lineCorners {α : Type} (l : ObjLine α) : List Corner :=
  [⟨toUnsigned l.vertexIndex.1, toUnsigned l.uvIndex.1, toUnsigned l.normalIndex.1⟩,
   ⟨toUnsigned l.vertexIndex.2.1, toUnsigned l.uvIndex.2.1, toUnsigned l.normalIndex.2.1⟩,
   ⟨toUnsigned l.vertexIndex.2.2, toUnsigned l.uvIndex.2.2, toUnsigned l.normalIndex.2.2⟩]

/-- The face corners of a file, in file order. -/
def corners {α : Type} (file : List (ObjLine α)) : List Corner :=
  (faceLines file).flatMap lineCorners

/-- The entry numbered `n` of a list whose entries are numbered from one. -/
def lineNumbered {β : Type} (lines : List β) (n : Nat) : Option β :=
  if n = 0 then none else lines[n - 1]?

/-- A face line scans when its nine integers are all matched. -/
def scansAsFace {α : Type} (l : ObjLine α) : Prop := l.matched = 9

instance {α : Type} (l : ObjLine α) : Decidable (scansAsFace l) :=
  inferInstanceAs (Decidable (l.matched = 9))

/-- The local vectors at end of file, when every word fits `lineHeader` and every
face line scans. -/
def readResult {α : Type} [Neg α] (file : List (ObjLine α)) (t : ObjTemps α) : ObjTemps α :=
  { vertexIndices := t.vertexIndices ++ (corners file).map (fun c => c.vertexIndex)
    uvIndices := t.uvIndices ++ (corners file).map (fun c => c.uvIndex)
    normalIndices := t.normalIndices ++ (corners file).map (fun c => c.normalIndex)
    temp_vertices := t.temp_vertices ++ vLines file
    temp_uvs := t.temp_uvs ++ (vtLines file).map (fun p => ⟨p.x, -p.y⟩)
    temp_normals := t.temp_normals ++ vnLines file }


/-! ### Sample lines -/

/-- A line `v x y z`. -/
def objV {α : Type} (x y z : α) : ObjLine α := ⟨"v", x, y, z, 0, (0, 0, 0), (0, 0, 0), (0, 0, 0)⟩

/-- A line `vt u v`; the third float is whatever the variable held, here `u`. -/
def objVt {α : Type} (u v : α) : ObjLine α := ⟨"vt", u, v, u, 0, (0, 0, 0), (0, 0, 0), (0, 0, 0)⟩

/-- A line `vn x y z`. -/
def objVn {α : Type} (x y z : α) : ObjLine α :=
  ⟨"vn", x, y, z, 0, (0, 0, 0), (0, 0, 0), (0, 0, 0)⟩

/-- A line `f a/b/c d/e/f g/h/i`, all nine integers scanned. -/
def objF {α : Type} (unused : α) (a b c d e f g h i : Int) : ObjLine α :=
  ⟨"f", unused, unused, unused, 9, (a, d, g), (b, e, h), (c, f, i)⟩

/-- A line starting with any other word, such as a comment. -/
def objOther {α : Type} (word : String) (unused : α) : ObjLine α :=
  ⟨word, unused, unused, unused, 0, (0, 0, 0), (0, 0, 0), (0, 0, 0)⟩

/-- A small file: a comment, three positions, two texture coordinates, one normal
and one triangle `f 1/1/1 2/2/1 3/1/1`. -/
def sampleObj : List (ObjLine Int) :=
  [objOther "#" 0, objV 1 2 3, objV 4 5 6, objV 7 8 9, objVt 10 11, objVt 12 13,
   objVn 0 0 1, objF 0 1 1 1 2 2 1 3 1 1]

/-- What `loadOBJ` produces from `sampleObj`. -/
def sampleOut : ObjOut Int :=
  { out_vertices := [⟨1, 2, 3⟩, ⟨4, 5, 6⟩, ⟨7, 8, 9⟩]
    out_uvs := [⟨10, -11⟩, ⟨12, -13⟩, ⟨10, -11⟩]
    out_normals := [⟨0, 0, 1⟩, ⟨0, 0, 1⟩, ⟨0, 0, 1⟩] }

/-- A file with one triangle and no `v`, `vt` or `vn` line. -/
def faceOnlyObj : List (ObjLine Int) := [objF 0 1 1 1 1 1 1 1 1 1]

/-- A word of 128 letters. -/
def longWord : String := String.mk (List.replicate 128 'g')

/-- A file whose only line starts with a word of 128 letters. -/
def longWordObj : List (ObjLine Int) := [objOther longWord 0]

/-- A file whose face line does not scan, followed by a line whose word does not fit
`lineHeader`. -/
def badFaceObj : List (ObjLine Int) :=
  [objV 1 2 3, ⟨"f", 0, 0, 0, 3, (1, 0, 0), (1, 0, 0), (1, 0, 0)⟩, objOther longWord 0]

/-- The read `lines[index - 1]`, with `index` an `unsigned int`, falls inside `lines`. -/
def indexInRange {β : Type} (lines : List β) (index : Nat) : Prop :=
  pred32 index < lines.length

instance {β : Type} (lines : List β) (index : Nat) : Decidable (indexInRange lines index) :=
  inferInstanceAs (Decidable (pred32 index < lines.length))

/-- Every face corner of the file reads inside the `v`, `vt` and `vn` lines. -/
def cornersInRange {α : Type} (file : List (ObjLine α)) : Prop :=
  ∀ c ∈ corners file, indexInRange (vLines file) c.vertexIndex ∧
    indexInRange (vtLines file) c.uvIndex ∧ indexInRange (vnLines file) c.normalIndex

instance {α : Type} (file : List (ObjLine α)) : Decidable (cornersInRange file) :=
  inferInstanceAs (Decidable (∀ c ∈ corners file, _))

/-! ## Matrices -/

/-- The type `glm::vec4`. -/
structure Vec4 (α : Type) where
  x : α
  y : α
  z : α
  w : α
deriving DecidableEq, Repr

/-- The type `glm::mat4`: four columns, `m[0]` to `m[3]`. -/
structure Mat4 (α : Type) where
  c0 : Vec4 α
  c1 : Vec4 α
  c2 : Vec4 α
  c3 : Vec4 α
deriving DecidableEq, Repr

/-- The matrix `glm::mat4(1.0f)`. -/
def Mat4.identity {α : Type} [Zero α] [One α] : Mat4 α :=
  ⟨⟨1, 0, 0, 0⟩, ⟨0, 1, 0, 0⟩, ⟨0, 0, 1, 0⟩, ⟨0, 0, 0, 1⟩⟩

/-! ## The chess-piece record -/

/-- The class `ChessPiece`.  A handle that no constructor or assignment has set is
indeterminate: `none`.  `indices` holds `unsigned short` values. -/
structure ChessPiece (α : Type) where
  vertices : List (Vec3 α)
  uvs : List (Vec2 α)
  normals : List (Vec3 α)
  indices : List Nat
  textureID : Option Nat
  vertexbuffer : Option Nat
  uvbuffer : Option Nat
  normalbuffer : Option Nat
  elementbuffer : Option Nat
  ModelMatrix : Mat4 α
  textureFile : String
deriving DecidableEq, Repr

/-- The default constructor `ChessPiece() : ModelMatrix(glm::mat4(1.0f)) {}`. -/
def ChessPiece.new {α : Type} [Zero α] [One α] : ChessPiece α :=
  { vertices := [], uvs := [], normals := [], indices := []
    textureID := none, vertexbuffer := none, uvbuffer := none, normalbuffer := none
    elementbuffer := none, ModelMatrix := Mat4.identity, textureFile := "" }

/-- The copy constructor `ChessPiece(const ChessPiece& other)`: six members are
initialised from `other`, the buffer handles are left indeterminate and
`textureFile` is default-constructed. -/
def ChessPiece.copy {α : Type} (other : ChessPiece α) : ChessPiece α :=
  { vertices := other.vertices, uvs := other.uvs, normals := other.normals
    indices := other.indices, textureID := other.textureID
    vertexbuffer := none, uvbuffer := none, normalbuffer := none, elementbuffer := none
    ModelMatrix := other.ModelMatrix, textureFile := "" }

/-- The assignment `ChessPiece::operator=`, applied to the object `this`.
`sameObject` is the outcome of the address test `this == &other`. -/
def ChessPiece.assign {α : Type} (this other : ChessPiece α) (sameObject : Bool) :
    ChessPiece α :=
  if sameObject = false then
    { this with
      vertices := other.vertices, uvs := other.uvs, normals := other.normals
      indices := other.indices, textureID := other.textureID
      ModelMatrix := other.ModelMatrix }
  else this

/-! ## `std::vector<ChessPiece>` -/

/-- A `std::vector` whose elements are relocated through a copy constructor: its
elements and its capacity.  `ChessPiece` declares a copy constructor and no move
constructor, so growing the storage copy-constructs every element. -/
structure StdVector (β : Type) where
  elems : List β
  capacity : Nat
deriving DecidableEq, Repr

/-- The call `v.reserve(n)`. -/
def StdVector.reserve {β : Type} (copy : β → β) (n : Nat) (v : StdVector β) : StdVector β :=
  if v.capacity < n then ⟨v.elems.map copy, n⟩ else v

/-- The call `v.push_back(std::move(x))`: the new element is copy-constructed from
`x`; when the storage is full the elements are first copy-constructed into a new
storage (of twice the size, as libstdc++ chooses it). -/
def StdVector.push_back {β : Type} (copy : β → β) (x : β) (v : StdVector β) : StdVector β :=
  if v.elems.length < v.capacity then ⟨v.elems ++ [copy x], v.capacity⟩
  else ⟨v.elems.map copy ++ [copy x], v.elems.length + max v.elems.length 1⟩

/-- The vector `std::vector<ChessPiece> chessPieces;` as declared in `render`. -/
def StdVector.empty {β : Type} : StdVector β := ⟨[], 0⟩

/-! ## `loadAssImp` -/

/-- The struct `aiFace`: `mNumIndices` is the length of `mIndices`. -/
structure AiFace where
  mIndices : List Nat
deriving DecidableEq, Repr

/-- The struct `aiMesh`, as far as `loadAssImp` reads it.  `mNumVertices` is the
length of `mVertices`; `mTextureCoords0` is `mTextureCoords[0]` and, like `mNormals`,
is either null or an array of `mNumVertices` entries. -/
structure AiMesh (α : Type) where
  mVertices : List (Vec3 α)
  mTextureCoords0 : Option (List (Vec3 α))
  mNormals : Option (List (Vec3 α))
  mFaces : List AiFace
  textureCoords_length : ∀ a, mTextureCoords0 = some a → a.length = mVertices.length
  normals_length : ∀ a, mNormals = some a → a.length = mVertices.length

/-- The member `mNumVertices`. -/
def AiMesh.mNumVertices {α : Type} (mesh : AiMesh α) : Nat := mesh.mVertices.length

/-- The method `aiMesh::HasTextureCoords(0)`. -/
def AiMesh.HasTextureCoords0 {α : Type} (mesh : AiMesh α) : Bool :=
  mesh.mTextureCoords0.isSome && decide (0 < mesh.mNumVertices)

/-- The method `aiMesh::HasNormals()`. -/
def AiMesh.HasNormals {α : Type} (mesh : AiMesh α) : Bool :=
  mesh.mNormals.isSome && decide (0 < mesh.mNumVertices)

/-- The struct `aiScene`: `mNumMeshes` is the length of `mMeshes`. -/
structure AiScene (α : Type) where
  mMeshes : List (AiMesh α)

/-- The read `array[i]` through a pointer that may be null. -/
def readArray {β : Type} (array : Option (List β)) (i : Nat) : Option β :=
  match array with
  | none => none
  | some a => a[i]?

/-- The flags `aiProcess_Triangulate | aiProcess_JoinIdenticalVertices |
aiProcess_SortByPType` (`0x8 | 0x2 | 0x8000`). -/
def importFlags : Nat := 32778

/-- The vector `textureFiles` of `loadAssImp`. -/
def textureFiles : List String :=
  ["Chess/woodlig3.bmp", "Chess/wooddar3.bmp", "Chess/woodlig2.bmp", "Chess/wooddar2.bmp",
   "Chess/woodlig0.bmp", "Chess/wooddar0.bmp", "Chess/woodlig5.bmp", "Chess/wooddar5.bmp",
   "Chess/woodlig4.bmp", "Chess/wooddar4.bmp", "Chess/woodlig1.bmp", "Chess/wooddar1.bmp"]

/-- The loop over `vertexIndex` in `loadAssImp`, from counter `vertexIndex` with `n`
passes left. -/
def vertexLoop {α : Type} (mesh : AiMesh α) :
    Nat → Nat → ChessPiece α → Option (ChessPiece α)
  | 0, _, piece => some piece
  | n + 1, vertexIndex, piece => do
    let pos ← mesh.mVertices[vertexIndex]?
    let piece := { piece with vertices := piece.vertices ++ [⟨pos.x, pos.y, pos.z⟩] }
    let piece ←
      if mesh.HasTextureCoords0 then do
        let uv ← readArray mesh.mTextureCoords0 vertexIndex
        pure { piece with uvs := piece.uvs ++ [⟨uv.x, uv.y⟩] }
      else pure piece
    let piece ←
      if mesh.HasNormals then do
        let normal ← readArray mesh.mNormals vertexIndex
        pure { piece with normals := piece.normals ++ [⟨normal.x, normal.y, normal.z⟩] }
      else pure piece
    vertexLoop mesh n (vertexIndex + 1) piece

/-- The loop `for (indexIndex = 0; indexIndex < 3; indexIndex++)` over one face: each
index is narrowed from `unsigned int` to `unsigned short`. -/
def indexLoop {α : Type} (face : AiFace) :
    Nat → Nat → ChessPiece α → Option (ChessPiece α)
  | 0, _, piece => some piece
  | n + 1, indexIndex, piece => do
    let index ← face.mIndices[indexIndex]?
    indexLoop face n (indexIndex + 1)
      { piece with indices := piece.indices ++ [index % 65536] }

/-- The loop over `faceIndex` in `loadAssImp`. -/
def faceLoop {α : Type} : List AiFace → ChessPiece α → Option (ChessPiece α)
  | [], piece => some piece
  | face :: rest, piece => do
    let piece ← indexLoop face 3 0 piece
    faceLoop rest piece

/-- The body of the loop over `meshIndex` up to the texture: the piece built from
one mesh, and the state of the texture loader after it.  The four `reserve` calls on
the new piece's vectors change no content and are left out. -/
def buildPiece {α σ : Type} [Zero α] [One α] (loadChessTexture : String → σ → Nat × σ)
    (mesh : AiMesh α) (meshIndex : Nat) (gl : σ) : Option (ChessPiece α × σ) := do
  let piece : ChessPiece α := ChessPiece.new
  let piece ← vertexLoop mesh mesh.mNumVertices 0 piece
  let piece ← faceLoop mesh.mFaces piece
  if h : meshIndex < textureFiles.length then
    let loaded := loadChessTexture (textureFiles.get ⟨meshIndex, h⟩) gl
    pure ({ piece with textureID := some loaded.1 }, loaded.2)
  else
    pure ({ piece with textureID := some 0 }, gl)

/-- The loop over `meshIndex` in `loadAssImp`, over the meshes still to be processed. -/
def meshLoop {α σ : Type} [Zero α] [One α] (loadChessTexture : String → σ → Nat × σ) :
    List (AiMesh α) → Nat → StdVector (ChessPiece α) → σ →
      Option (StdVector (ChessPiece α) × σ)
  | [], _, chessPieces, gl => some (chessPieces, gl)
  | mesh :: rest, meshIndex, chessPieces, gl => do
    let (piece, gl) ← buildPiece loadChessTexture mesh meshIndex gl
    meshLoop loadChessTexture rest (meshIndex + 1)
      (chessPieces.push_back ChessPiece.copy piece) gl

/-- The function `loadAssImp`.  `ReadFile` is `Assimp::Importer::ReadFile`, with
`none` for a null scene; `loadChessTexture` is the texture loader and `gl` the state
it works on.  The result is `none` when the run reads outside an array; otherwise it
is the returned `bool`, the vector `chessPieces` and the texture loader's state. -/
def loadAssImp {α σ : Type} [Zero α] [One α]
    (ReadFile : String → Nat → Option (AiScene α))
    (loadChessTexture : String → σ → Nat × σ)
    (path : String) (chessPieces : StdVector (ChessPiece α)) (gl : σ) :
    Option (Bool × StdVector (ChessPiece α) × σ) :=
  match ReadFile path importFlags with
  | none => some (false, chessPieces, gl)
  | some scene =>
    (meshLoop loadChessTexture scene.mMeshes 0
      (chessPieces.reserve ChessPiece.copy scene.mMeshes.length) gl).map
      (fun r => (true, r.1, r.2))

/-! ### The pieces as the claims describe them -/

/-- The `(x, y)` of the first texture-coordinate channel of a mesh that has one, and
nothing for a mesh that has none. -/
def meshUvs {α : Type} (mesh : AiMesh α) : List (Vec2 α) :=
  if mesh.HasTextureCoords0 then
    (mesh.mTextureCoords0.getD []).map (fun uv => ⟨uv.x, uv.y⟩)
  else []

/-- The normals of a mesh that has normals, and nothing for a mesh that has none. -/
def meshNormals {α : Type} (mesh : AiMesh α) : List (Vec3 α) :=
  if mesh.HasNormals then mesh.mNormals.getD [] else []

/-- The first three indices of every face, each narrowed to `unsigned short`. -/
def meshIndices {α : Type} (mesh : AiMesh α) : List Nat :=
  mesh.mFaces.flatMap (fun face => (face.mIndices.take 3).map (fun index => index % 65536))

/-- Every face of the mesh has at least three indices. -/
def triangulated {α : Type} (mesh : AiMesh α) : Prop :=
  ∀ face ∈ mesh.mFaces, 3 ≤ face.mIndices.length

instance {α : Type} (mesh : AiMesh α) : Decidable (triangulated mesh) :=
  inferInstanceAs (Decidable (∀ face ∈ mesh.mFaces, _))

/-- The texture step of the loop body for mesh number `meshIndex`: the texture
identifier given to the piece and the state of the texture loader after it. -/
def textureStep {σ : Type} (loadChessTexture : String → σ → Nat × σ) (meshIndex : Nat)
    (gl : σ) : Nat × σ :=
  match textureFiles[meshIndex]? with
  | some file => loadChessTexture file gl
  | none => (0, gl)

/-- The state of the texture loader when the loop reaches mesh number `meshIndex`,
having started on mesh 0 in state `gl`. -/
def textureStateAt {σ : Type} (loadChessTexture : String → σ → Nat × σ) (gl : σ) :
    Nat → σ
  | 0 => gl
  | meshIndex + 1 =>
    (textureStep loadChessTexture meshIndex (textureStateAt loadChessTexture gl meshIndex)).2

/-- The piece that `chessPieces` receives for a mesh, given its texture identifier. -/
def pieceOfMesh {α : Type} [Zero α] [One α] (mesh : AiMesh α) (texture : Nat) :
    ChessPiece α :=
  { vertices := mesh.mVertices, uvs := meshUvs mesh, normals := meshNormals mesh
    indices := meshIndices mesh, textureID := some texture
    vertexbuffer := none, uvbuffer := none, normalbuffer := none, elementbuffer := none
    ModelMatrix := Mat4.identity, textureFile := "" }

/-- The pieces received for a list of meshes, the first of which is mesh number
`meshIndex`, and the state of the texture loader after them. -/
def piecesOfMeshes {α σ : Type} [Zero α] [One α]
    (loadChessTexture : String → σ → Nat × σ) :
    List (AiMesh α) → Nat → σ → List (ChessPiece α) × σ
  | [], _, gl => ([], gl)
  | mesh :: rest, meshIndex, gl =>
    let step := textureStep loadChessTexture meshIndex gl
    let tail := piecesOfMeshes loadChessTexture rest (meshIndex + 1) step.2
    (pieceOfMesh mesh step.1 :: tail.1, tail.2)

/-- The state of the texture loader after `n` meshes, the first of which is mesh
number `first` and is reached in state `gl`. -/
def textureStateFrom {σ : Type} (loadChessTexture : String → σ → Nat × σ) (first : Nat)
    (gl : σ) : Nat → σ
  | 0 => gl
  | n + 1 =>
    (textureStep loadChessTexture (first + n)
      (textureStateFrom loadChessTexture first gl n)).2

/-- A texture file of light wood. -/
def isLightWood (file : String) : Bool := "Chess/woodlig".data.isPrefixOf file.data

/-- A texture file of dark wood. -/
def isDarkWood (file : String) : Bool := "Chess/wooddar".data.isPrefixOf file.data

/-! ### Sample scenes -/

/-- A texture loader that numbers the textures it creates: the state is the number
of textures created so far. -/
def countingLoader (_file : String) (created : Nat) : Nat × Nat := (created + 1, created + 1)

/-- A mesh of one triangle with texture coordinates and normals. -/
def triangleMesh : AiMesh Int :=
  { mVertices := [⟨0, 0, 0⟩, ⟨1, 0, 0⟩, ⟨0, 1, 0⟩]
    mTextureCoords0 := some [⟨0, 0, 7⟩, ⟨1, 0, 7⟩, ⟨0, 1, 7⟩]
    mNormals := some [⟨0, 0, 1⟩, ⟨0, 0, 1⟩, ⟨0, 0, 1⟩]
    mFaces := [⟨[0, 1, 2]⟩]
    textureCoords_length := by intro a h; cases h; rfl
    normals_length := by intro a h; cases h; rfl }

/-- A mesh of one triangle with neither texture coordinates nor normals. -/
def bareMesh : AiMesh Int :=
  { mVertices := [⟨0, 0, 0⟩, ⟨2, 0, 0⟩, ⟨0, 2, 0⟩]
    mTextureCoords0 := none
    mNormals := none
    mFaces := [⟨[2, 1, 0]⟩]
    textureCoords_length := by intro a h; cases h
    normals_length := by intro a h; cases h }

/-- A mesh made of one line segment: its face has two indices. -/
def lineMesh : AiMesh Int :=
  { mVertices := [⟨0, 0, 0⟩, ⟨1, 0, 0⟩]
    mTextureCoords0 := none
    mNormals := none
    mFaces := [⟨[0, 1]⟩]
    textureCoords_length := by intro a h; cases h
    normals_length := by intro a h; cases h }

/-- A scene of two triangle meshes. -/
def sampleScene : AiScene Int := ⟨[triangleMesh, bareMesh]⟩

/-- A scene whose only mesh is a line segment. -/
def lineScene : AiScene Int := ⟨[lineMesh]⟩

/-- The pieces `loadAssImp` makes of `sampleScene`. -/
def samplePieces : StdVector (ChessPiece Int) :=
  { elems :=
      [{ vertices := [⟨0, 0, 0⟩, ⟨1, 0, 0⟩, ⟨0, 1, 0⟩]
         uvs := [⟨0, 0⟩, ⟨1, 0⟩, ⟨0, 1⟩]
         normals := [⟨0, 0, 1⟩, ⟨0, 0, 1⟩, ⟨0, 0, 1⟩]
         indices := [0, 1, 2], textureID := some 1
         vertexbuffer := none, uvbuffer := none, normalbuffer := none
         elementbuffer := none, ModelMatrix := Mat4.identity, textureFile := "" },
       { vertices := [⟨0, 0, 0⟩, ⟨2, 0, 0⟩, ⟨0, 2, 0⟩]
         uvs := [], normals := []
         indices := [2, 1, 0], textureID := some 2
         vertexbuffer := none, uvbuffer := none, normalbuffer := none
         elementbuffer := none, ModelMatrix := Mat4.identity, textureFile := "" }]
    capacity := 2 }

/-! ## GLM operations -/

/-- The sum of two `glm::vec4`. -/
def Vec4.add {α : Type} [Add α] (a b : Vec4 α) : Vec4 α :=
  ⟨a.x + b.x, a.y + b.y, a.z + b.z, a.w + b.w⟩

/-- The product of a `glm::vec4` and a scalar. -/
def Vec4.scale {α : Type} [Mul α] (a : Vec4 α) (k : α) : Vec4 α :=
  ⟨a.x * k, a.y * k, a.z * k, a.w * k⟩

/-- The function `glm::translate(m, v)`: the last column becomes
`m[0] * v[0] + m[1] * v[1] + m[2] * v[2] + m[3]`, the others are those of `m`. -/
def translate {α : Type} [Add α] [Mul α] (m : Mat4 α) (v : Vec3 α) : Mat4 α :=
  { m with c3 := (((m.c0.scale v.x).add (m.c1.scale v.y)).add (m.c2.scale v.z)).add m.c3 }

/-- The product of a `glm::mat4` and a `glm::vec4`. -/
def Mat4.mulVec {α : Type} [Add α] [Mul α] (m : Mat4 α) (v : Vec4 α) : Vec4 α :=
  (((m.c0.scale v.x).add (m.c1.scale v.y)).add (m.c2.scale v.z)).add (m.c3.scale v.w)

/-- The product of two `glm::mat4`. -/
def Mat4.mul {α : Type} [Add α] [Mul α] (a b : Mat4 α) : Mat4 α :=
  ⟨a.mulVec b.c0, a.mulVec b.c1, a.mulVec b.c2, a.mulVec b.c3⟩

/-- The function `glm::cross`. -/
def cross {α : Type} [Sub α] [Mul α] (a b : Vec3 α) : Vec3 α :=
  ⟨a.y * b.z - b.y * a.z, a.z * b.x - b.z * a.x, a.x * b.y - b.x * a.y⟩

/-- The product of a scalar and a `glm::vec3`. -/
def Vec3.smul {α : Type} [Mul α] (k : α) (a : Vec3 α) : Vec3 α :=
  ⟨k * a.x, k * a.y, k * a.z⟩

/-- The library functions whose arithmetic is not modelled: `cos` and `sin` of libm,
and `glm::pi`, `glm::radians`, `glm::rotate`, `glm::perspective`, `glm::lookAt`. -/
structure Externals (α : Type) where
  cos : α → α
  sin : α → α
  pi : α
  radians : α → α
  rotate : Mat4 α → α → Vec3 α → Mat4 α
  perspective : α → α → α → α → Mat4 α
  lookAt : Vec3 α → Vec3 α → Vec3 α → Mat4 α

/-- The methods `ChessPiece::rotate` and `ChessPiece::translate`. -/
def ChessPiece.rotate {α : Type} (E : Externals α) (p : ChessPiece α) (angle : α)
    (axis : Vec3 α) : ChessPiece α :=
  { p with ModelMatrix := E.rotate p.ModelMatrix (E.radians angle) axis }

/-- The method `ChessPiece::translate`. -/
def ChessPiece.translate {α : Type} [Add α] [Mul α] (p : ChessPiece α)
    (translation : Vec3 α) : ChessPiece α :=
  { p with ModelMatrix := ChessGame.translate p.ModelMatrix translation }

/-! ## Controls (`controls.cpp`) -/

/-- The variables of `controls.cpp`: the namespace-scope camera variables,
`lightEnabled`, the two function-local statics (`lastTime` is `none` until
`computeMatricesFromInputs` has run once) and the window's close flag. -/
structure Controls (α : Type) where
  ViewMatrix : Mat4 α
  ProjectionMatrix : Mat4 α
  position : Vec3 α
  horizontalAngle : α
  verticalAngle : α
  initialFoV : α
  radialDistance : α
  lightEnabled : Bool
  lastLState : Bool
  lastTime : Option α
  windowShouldClose : Bool

/-- What GLFW reports during one call of `computeMatricesFromInputs`: for each key
whether `glfwGetKey` returns `GLFW_PRESS`, the cursor position, and the two readings
of `glfwGetTime` (the first is used only by the initialiser of `lastTime`). -/
structure FrameInput (α : Type) where
  keyW : Bool
  keyS : Bool
  keyA : Bool
  keyD : Bool
  keyUp : Bool
  keyDown : Bool
  keyL : Bool
  keyEscape : Bool
  xpos : α
  ypos : α
  firstTime : α
  currentTime : α

/-- The constant `SPEED`. -/
def SPEED {α : Type} [OfScientific α] : α := 6.0

/-- The constant `MOUSE_SPEED`. -/
def MOUSE_SPEED {α : Type} [OfScientific α] : α := 0.005

/-- The constant `WINDOW_WIDTH`. -/
def WINDOW_WIDTH : Int := 1024

/-- The constant `WINDOW_HEIGHT`. -/
def WINDOW_HEIGHT : Int := 768

/-- The initial values of the variables of `controls.cpp`; the two matrices have
static storage and start as zero. -/
def Controls.initial {α : Type} [Field α] : Controls α :=
  { ViewMatrix := ⟨⟨0, 0, 0, 0⟩, ⟨0, 0, 0, 0⟩, ⟨0, 0, 0, 0⟩, ⟨0, 0, 0, 0⟩⟩
    ProjectionMatrix := ⟨⟨0, 0, 0, 0⟩, ⟨0, 0, 0, 0⟩, ⟨0, 0, 0, 0⟩, ⟨0, 0, 0, 0⟩⟩
    position := ⟨0, 0, 5⟩
    horizontalAngle := 3.14
    verticalAngle := 0.0
    initialFoV := 45.0
    radialDistance := 5.0
    lightEnabled := true
    lastLState := false
    lastTime := none
    windowShouldClose := false }

/-- The function `handleKeyboardInput`. -/
def handleKeyboardInput {α : Type} [LinearOrderedField α] (inp : FrameInput α)
    (deltaTime : α) (c : Controls α) : Controls α :=
  let c := if inp.keyW then
      let c := { c with radialDistance := c.radialDistance - deltaTime * SPEED }
      { c with radialDistance := max 0.1 c.radialDistance }
    else c
  let c := if inp.keyS then
      { c with radialDistance := c.radialDistance + deltaTime * SPEED }
    else c
  let c := if inp.keyA then
      { c with horizontalAngle := c.horizontalAngle - deltaTime * SPEED }
    else c
  let c := if inp.keyD then
      { c with horizontalAngle := c.horizontalAngle + deltaTime * SPEED }
    else c
  let c := if inp.keyUp then
      { c with verticalAngle := c.verticalAngle + deltaTime * SPEED }
    else c
  let c := if inp.keyDown then
      { c with verticalAngle := c.verticalAngle - deltaTime * SPEED }
    else c
  let currentLState := inp.keyL
  let c := if currentLState && !c.lastLState then
      { c with lightEnabled := !c.lightEnabled }
    else c
  let c := { c with lastLState := currentLState }
  if inp.keyEscape then { c with windowShouldClose := true } else c

/-- The direction computed by `computeMatricesFromInputs` from the two angles. -/
def direction {α : Type} [Mul α] (E : Externals α) (verticalAngle horizontalAngle : α) :
    Vec3 α :=
  ⟨E.cos verticalAngle * E.sin horizontalAngle, E.sin verticalAngle,
    E.cos verticalAngle * E.cos horizontalAngle⟩

/-- The function `computeMatricesFromInputs`. -/
def computeMatricesFromInputs {α : Type} [LinearOrderedField α] (E : Externals α)
    (inp : FrameInput α) (c : Controls α) : Controls α :=
  let lastTime := c.lastTime.getD inp.firstTime
  let currentTime := inp.currentTime
  let deltaTime := currentTime - lastTime
  let c := { c with
    horizontalAngle :=
      c.horizontalAngle + MOUSE_SPEED * (((WINDOW_WIDTH / 2 : Int) : α) - inp.xpos) }
  let c := { c with
    verticalAngle :=
      c.verticalAngle + MOUSE_SPEED * (((WINDOW_HEIGHT / 2 : Int) : α) - inp.ypos) }
  let c := handleKeyboardInput inp deltaTime c
  let direction := direction E c.verticalAngle c.horizontalAngle
  let c := { c with position := Vec3.smul c.radialDistance direction }
  let right : Vec3 α :=
    ⟨E.sin (c.horizontalAngle - E.pi / 2.0), 0, E.cos (c.horizontalAngle - E.pi / 2.0)⟩
  let up := cross right direction
  let FoV := c.initialFoV
  let c := { c with ProjectionMatrix := E.perspective (E.radians FoV) (4.0 / 3.0) 0.1 100.0 }
  let c := { c with ViewMatrix := E.lookAt c.position ⟨0, 0, 0⟩ up }
  { c with lastTime := some currentTime }

/-! ## The frame loop (`render` in `main.cpp`) -/

/-- What one call of `ChessPiece::render` hands to OpenGL: the two matrix uniforms,
the bound texture and buffers, and the number of indices drawn. -/
structure DrawElements (α : Type) where
  ModelMatrix : Mat4 α
  MVP : Mat4 α
  textureID : Option Nat
  vertexbuffer : Option Nat
  uvbuffer : Option Nat
  normalbuffer : Option Nat
  elementbuffer : Option Nat
  count : Nat
deriving DecidableEq, Repr

/-- The method `ChessPiece::render`. -/
def ChessPiece.render {α : Type} [Add α] [Mul α] (p : ChessPiece α)
    (ProjectionMatrix ViewMatrix : Mat4 α) : DrawElements α :=
  { ModelMatrix := p.ModelMatrix
    MVP := (ProjectionMatrix.mul ViewMatrix).mul p.ModelMatrix
    textureID := p.textureID
    vertexbuffer := p.vertexbuffer, uvbuffer := p.uvbuffer
    normalbuffer := p.normalbuffer, elementbuffer := p.elementbuffer
    count := p.indices.length }

/-- The pieces and the render calls made so far in the frame, each with the index of
the piece it was made on. -/
structure DrawState (α : Type) where
  chessPieces : List (ChessPiece α)
  calls : List (Nat × DrawElements α)
deriving DecidableEq, Repr

/-- The statement `chessPieces[i].ModelMatrix = f(chessPieces[i].ModelMatrix);`.
`none` when `i` is outside the vector. -/
def DrawState.setModelMatrix {α : Type} (i : Nat) (f : Mat4 α → Mat4 α) (s : DrawState α) :
    Option (DrawState α) :=
  match s.chessPieces[i]? with
  | none => none
  | some p => some { s with chessPieces := s.chessPieces.set i { p with ModelMatrix := f p.ModelMatrix } }

/-- The statement `chessPieces[i].render(programID, ..., ProjectionMatrix, ViewMatrix);`.
`none` when `i` is outside the vector. -/
def DrawState.render {α : Type} [Add α] [Mul α] (i : Nat)
    (ProjectionMatrix ViewMatrix : Mat4 α) (s : DrawState α) : Option (DrawState α) :=
  match s.chessPieces[i]? with
  | none => none
  | some p => some { s with calls := s.calls ++ [(i, p.render ProjectionMatrix ViewMatrix)] }

/-- A loop `for (int i = 0; i < n; i++) body`. -/
def forLoop {σ : Type} (n : Nat) (body : Int → σ → Option σ) (s : σ) : Option σ :=
  (List.range n).foldlM (fun (s : σ) (i : Nat) => body (i : Int) s) s

/-- The body of the first `// Pawn` loop. -/
def whitePawn {α : Type} [Add α] [Mul α] [Neg α] [Zero α] [One α]
    [OfScientific α] [IntCast α]
    (P V : Mat4 α) (spacing : α) (col : Int)
    (s : DrawState α) : Option (DrawState α) := do
  let s ← s.setModelMatrix 5 (fun _ => Mat4.identity)
  let s ← s.setModelMatrix 5 (fun m => translate m ⟨((col - 1 : Int) : α) * spacing, 0.0, 30.0⟩)
  let s ← s.setModelMatrix 5 (fun m => translate m ⟨-27.3, 0.0, 0.0⟩)
  s.render 5 P V

/-- The body of the first `// Knight` loop. -/
def whiteKnight {α : Type} [Add α] [Mul α] [Zero α] [One α] [OfScientific α]
    [IntCast α] [NatCast α]
    (P V : Mat4 α) (spacing : α) (i : Int)
    (s : DrawState α) : Option (DrawState α) := do
  let s ← s.setModelMatrix 3 (fun _ => Mat4.identity)
  let s ← s.setModelMatrix 3
    (fun m => translate m ⟨((i - 1 : Int) : α) * spacing * 5, 0.0, 25.0⟩)
  let s ← s.setModelMatrix 3 (fun m => translate m ⟨22.0, 0.0, 0.0⟩)
  s.render 3 P V

/-- The body of the first `// Bishop` loop. -/
def whiteBishop {α : Type} [Add α] [Mul α] [Zero α] [One α] [OfScientific α]
    [IntCast α] [NatCast α]
    (P V : Mat4 α) (spacing : α) (i : Int)
    (s : DrawState α) : Option (DrawState α) := do
  let s ← s.setModelMatrix 1 (fun _ => Mat4.identity)
  let s ← s.setModelMatrix 1
    (fun m => translate m ⟨((i - 1 : Int) : α) * spacing * 3, 0.0, 25.0⟩)
  let s ← s.setModelMatrix 1 (fun m => translate m ⟨11.5, 0.0, 0.0⟩)
  s.render 1 P V

/-- The body of the first `// Rook` loop. -/
def whiteRook {α : Type} [Add α] [Mul α] [Zero α] [One α] [OfScientific α]
    [IntCast α] [NatCast α]
    (P V : Mat4 α) (spacing : α) (i : Int)
    (s : DrawState α) : Option (DrawState α) := do
  let s ← s.setModelMatrix 11 (fun _ => Mat4.identity)
  let s ← s.setModelMatrix 11
    (fun m => translate m ⟨((i - 1 : Int) : α) * spacing * 7, 0.0, 25.0⟩)
  let s ← s.setModelMatrix 11 (fun m => translate m ⟨34.0, 0.0, 0.0⟩)
  s.render 11 P V

/-- The first `// King` block. -/
def whiteKing {α : Type} [Add α] [Mul α] [Zero α] [One α] [OfScientific α]
    (P V : Mat4 α) (s : DrawState α) :
    Option (DrawState α) := do
  let s ← s.setModelMatrix 9 (fun _ => Mat4.identity)
  let s ← s.setModelMatrix 9 (fun m => translate m ⟨0.0, 0.0, 25.0⟩)
  s.render 9 P V

/-- The first `// Queen` block. -/
def whiteQueen {α : Type} [Add α] [Mul α] [Neg α] [Zero α] [One α]
    [OfScientific α]
    (P V : Mat4 α) (s : DrawState α) :
    Option (DrawState α) := do
  let s ← s.setModelMatrix 7 (fun _ => Mat4.identity)
  let s ← s.setModelMatrix 7 (fun m => translate m ⟨0.0, 0.0, 25.0⟩)
  let s ← s.setModelMatrix 7 (fun m => translate m ⟨-11.0, 0.0, 0.0⟩)
  s.render 7 P V

/-- The body of the `// Pawn` loop after `// Setup black pieces`. -/
def blackPawn {α : Type} [Add α] [Mul α] [Neg α] [Zero α] [One α]
    [OfScientific α] [IntCast α]
    (P V : Mat4 α) (spacing currentX : α) (col : Int)
    (s : DrawState α) : Option (DrawState α) := do
  let s ← s.setModelMatrix 4 (fun _ => Mat4.identity)
  let s ← s.setModelMatrix 4
    (fun m => translate m ⟨currentX + ((col - 1 : Int) : α) * spacing, 0.0, 45.0⟩)
  let s ← s.setModelMatrix 4 (fun m => translate m ⟨-32.0, 0.0, 0.0⟩)
  s.render 4 P V

/-- The body of the `// Knight` loop after `// Setup black pieces`. -/
def blackKnight {α : Type} [Add α] [Mul α] [Neg α] [Zero α] [One α]
    [OfScientific α] [IntCast α] [NatCast α]
    (E : Externals α) (P V : Mat4 α) (spacing : α)
    (i : Int) (s : DrawState α) : Option (DrawState α) := do
  let s ← s.setModelMatrix 2 (fun _ => Mat4.identity)
  let s ← s.setModelMatrix 2
    (fun m => translate m ⟨((i - 1 : Int) : α) * spacing * 5, 0.0, 0.0⟩)
  let s ← s.setModelMatrix 2 (fun m => translate m ⟨5.3, 0.0, 0.0⟩)
  let s ← s.setModelMatrix 2 (fun m => translate m ⟨0.0, 0.0, -12.0⟩)
  let s ← s.setModelMatrix 2 (fun m => E.rotate m (E.radians 180.0) ⟨0.0, 1.0, 0.0⟩)
  s.render 2 P V

/-- The body of the `// Bishop` loop after `// Setup black pieces`. -/
def blackBishop {α : Type} [Add α] [Mul α] [Neg α] [Zero α] [One α]
    [OfScientific α] [IntCast α] [NatCast α]
    (E : Externals α) (P V : Mat4 α) (spacing : α)
    (i : Int) (s : DrawState α) : Option (DrawState α) := do
  let s ← s.setModelMatrix 0 (fun _ => Mat4.identity)
  let s ← s.setModelMatrix 0
    (fun m => translate m ⟨((i - 1 : Int) : α) * spacing * 3, 0.0, 0.0⟩)
  let s ← s.setModelMatrix 0 (fun m => translate m ⟨5.3, 0.0, 0.0⟩)
  let s ← s.setModelMatrix 0 (fun m => translate m ⟨0.0, 0.0, -12.0⟩)
  let s ← s.setModelMatrix 0 (fun m => E.rotate m (E.radians 180.0) ⟨0.0, 1.0, 0.0⟩)
  s.render 0 P V

/-- The body of the `// Rook` loop after `// Setup black pieces`. -/
def blackRook {α : Type} [Add α] [Mul α] [Neg α] [Zero α] [One α]
    [OfScientific α] [IntCast α] [NatCast α]
    (E : Externals α) (P V : Mat4 α) (spacing : α)
    (i : Int) (s : DrawState α) : Option (DrawState α) := do
  let s ← s.setModelMatrix 10 (fun _ => Mat4.identity)
  let s ← s.setModelMatrix 10
    (fun m => translate m ⟨((i - 1 : Int) : α) * spacing * 7, 0.0, 0.0⟩)
  let s ← s.setModelMatrix 10 (fun m => translate m ⟨5.3, 0.0, 0.0⟩)
  let s ← s.setModelMatrix 10 (fun m => translate m ⟨0.0, 0.0, -12.0⟩)
  let s ← s.setModelMatrix 10 (fun m => E.rotate m (E.radians 180.0) ⟨0.0, 1.0, 0.0⟩)
  s.render 10 P V

/-- The `// King` block after `// Setup black pieces`. -/
def blackKing {α : Type} [Add α] [Mul α] [Neg α] [Zero α] [One α]
    [OfScientific α]
    (E : Externals α) (P V : Mat4 α) (s : DrawState α) :
    Option (DrawState α) := do
  let s ← s.setModelMatrix 8 (fun _ => Mat4.identity)
  let s ← s.setModelMatrix 8 (fun m => translate m ⟨5.3, 0.0, 0.0⟩)
  let s ← s.setModelMatrix 8 (fun m => translate m ⟨0.0, 0.0, -12.0⟩)
  let s ← s.setModelMatrix 8 (fun m => E.rotate m (E.radians 180.0) ⟨0.0, 1.0, 0.0⟩)
  s.render 8 P V

/-- The `// Queen` block after `// Setup black pieces`. -/
def blackQueen {α : Type} [Add α] [Mul α] [Neg α] [Zero α] [One α]
    [OfScientific α]
    (E : Externals α) (P V : Mat4 α) (s : DrawState α) :
    Option (DrawState α) := do
  let s ← s.setModelMatrix 6 (fun _ => Mat4.identity)
  let s ← s.setModelMatrix 6 (fun m => translate m ⟨5.3, 0.0, 0.0⟩)
  let s ← s.setModelMatrix 6 (fun m => translate m ⟨0.0, 0.0, -12.0⟩)
  let s ← s.setModelMatrix 6 (fun m => E.rotate m (E.radians 180.0) ⟨0.0, 1.0, 0.0⟩)
  s.render 6 P V

/-- The part of the frame from `float spacing = 5.5f;` to the last `render` call:
every model matrix is set to the identity, then the blocks run in order. -/
@[nospecialize]
def drawPieces {α : Type} [Add α] [Mul α] [Neg α] [Zero α] [One α]
    [OfScientific α] [IntCast α] [NatCast α]
    (E : Externals α) (ProjectionMatrix ViewMatrix : Mat4 α)
    (chessPieces : List (ChessPiece α)) : Option (DrawState α) := do
  let spacing : α := 5.5
  let s : DrawState α :=
    ⟨chessPieces.map (fun piece => { piece with ModelMatrix := Mat4.identity }), []⟩
  let s ← forLoop 8 (whitePawn ProjectionMatrix ViewMatrix spacing) s
  let s ← forLoop 2 (whiteKnight ProjectionMatrix ViewMatrix spacing) s
  let s ← forLoop 2 (whiteBishop ProjectionMatrix ViewMatrix spacing) s
  let s ← forLoop 2 (whiteRook ProjectionMatrix ViewMatrix spacing) s
  let s ← whiteKing ProjectionMatrix ViewMatrix s
  let s ← whiteQueen ProjectionMatrix ViewMatrix s
  let currentX : α := 5.0
  let s ← forLoop 8 (blackPawn ProjectionMatrix ViewMatrix spacing currentX) s
  let s ← forLoop 2 (blackKnight E ProjectionMatrix ViewMatrix spacing) s
  let s ← forLoop 2 (blackBishop E ProjectionMatrix ViewMatrix spacing) s
  let s ← forLoop 2 (blackRook E ProjectionMatrix ViewMatrix spacing) s
  let s ← blackKing E ProjectionMatrix ViewMatrix s
  blackQueen E ProjectionMatrix ViewMatrix s

/-- The shape shared by the blocks above: the statements
`chessPieces[i].ModelMatrix = f(chessPieces[i].ModelMatrix);` for each `f` of a
list, followed by `chessPieces[i].render(...)`. -/
def placeWith {α : Type} [Add α] [Mul α] (i : Nat) (P V : Mat4 α) :
    List (Mat4 α → Mat4 α) → DrawState α → Option (DrawState α)
  | [], s => s.render i P V
  | f :: fs, s => (s.setModelMatrix i f).bind (placeWith i P V fs)

/-- What one pass of the frame loop hands to OpenGL: the light switch and view
uniforms, the board's matrices, and the render calls of the pieces, in order. -/
structure FrameTrace (α : Type) where
  enableLight : Bool
  ViewMatrix : Mat4 α
  boardModelMatrix : Mat4 α
  boardMVP : Mat4 α
  pieceCalls : List (Nat × DrawElements α)
deriving DecidableEq, Repr

/-- One pass of the `do { ... } while (...)` loop of `render`.  `none` when a piece
index is outside `chessPieces`. -/
def frame {α : Type} [LinearOrderedField α] (E : Externals α) (inp : FrameInput α)
    (c : Controls α) (chessPieces : StdVector (ChessPiece α)) :
    Option (FrameTrace α × Controls α × StdVector (ChessPiece α)) := do
  let c := computeMatricesFromInputs E inp c
  let ProjectionMatrix := c.ProjectionMatrix
  let ViewMatrix := c.ViewMatrix
  let ModelMatrix : Mat4 α := Mat4.identity
  let ModelMatrix := E.rotate ModelMatrix (E.radians (-90.0)) ⟨1.0, 0.0, 0.0⟩
  let ModelMatrix := translate ModelMatrix ⟨0.0, 0.0, 0.5⟩
  let MVP := (ProjectionMatrix.mul ViewMatrix).mul ModelMatrix
  let s ← drawPieces E ProjectionMatrix ViewMatrix chessPieces.elems
  pure ({ enableLight := c.lightEnabled, ViewMatrix := ViewMatrix
          boardModelMatrix := ModelMatrix, boardMVP := MVP, pieceCalls := s.calls },
        c, { chessPieces with elems := s.chessPieces })

/-- The frame loop run once for each element of `inputs`; the exit test of the
`do ... while` decides only how many passes there are. -/
def runFrames {α : Type} [LinearOrderedField α] (E : Externals α) :
    List (FrameInput α) → Controls α → StdVector (ChessPiece α) →
      Option (List (FrameTrace α) × Controls α × StdVector (ChessPiece α))
  | [], c, chessPieces => some ([], c, chessPieces)
  | inp :: rest, c, chessPieces => do
    let (trace, c, chessPieces) ← frame E inp c chessPieces
    let (traces, c, chessPieces) ← runFrames E rest c chessPieces
    pure (trace :: traces, c, chessPieces)

/-- The piece index and model matrix of each render call. -/
def placements {α : Type} (calls : List (Nat × DrawElements α)) : List (Nat × Mat4 α) :=
  calls.map (fun call => (call.1, call.2.ModelMatrix))

/-- The piece indices of the render calls. -/
def renderedIndices {α : Type} (calls : List (Nat × DrawElements α)) : List Nat :=
  calls.map (fun call => call.1)

/-- The placement of every piece as the frame loop writes it: the piece index and the
model matrix built from the identity by the literal translations and rotations. -/
def staticScene {α : Type} [Add α] [Mul α] [Neg α] [Zero α] [One α]
    [OfScientific α] [IntCast α] [NatCast α]
    (E : Externals α) : List (Nat × Mat4 α) :=
  (List.range 8).map (fun col =>
    (5, translate (translate Mat4.identity
      ⟨(((col : Int) - 1 : Int) : α) * 5.5, 0.0, 30.0⟩) ⟨-27.3, 0.0, 0.0⟩)) ++
  (List.range 2).map (fun i =>
    (3, translate (translate Mat4.identity
      ⟨(((i : Int) - 1 : Int) : α) * 5.5 * 5, 0.0, 25.0⟩) ⟨22.0, 0.0, 0.0⟩)) ++
  (List.range 2).map (fun i =>
    (1, translate (translate Mat4.identity
      ⟨(((i : Int) - 1 : Int) : α) * 5.5 * 3, 0.0, 25.0⟩) ⟨11.5, 0.0, 0.0⟩)) ++
  (List.range 2).map (fun i =>
    (11, translate (translate Mat4.identity
      ⟨(((i : Int) - 1 : Int) : α) * 5.5 * 7, 0.0, 25.0⟩) ⟨34.0, 0.0, 0.0⟩)) ++
  [(9, translate Mat4.identity ⟨0.0, 0.0, 25.0⟩),
   (7, translate (translate Mat4.identity ⟨0.0, 0.0, 25.0⟩) ⟨-11.0, 0.0, 0.0⟩)] ++
  (List.range 8).map (fun col =>
    (4, translate (translate Mat4.identity
      ⟨5.0 + (((col : Int) - 1 : Int) : α) * 5.5, 0.0, 45.0⟩) ⟨-32.0, 0.0, 0.0⟩)) ++
  (List.range 2).map (fun i =>
    (2, E.rotate (translate (translate (translate Mat4.identity
      ⟨(((i : Int) - 1 : Int) : α) * 5.5 * 5, 0.0, 0.0⟩) ⟨5.3, 0.0, 0.0⟩) ⟨0.0, 0.0, -12.0⟩)
      (E.radians 180.0) ⟨0.0, 1.0, 0.0⟩)) ++
  (List.range 2).map (fun i =>
    (0, E.rotate (translate (translate (translate Mat4.identity
      ⟨(((i : Int) - 1 : Int) : α) * 5.5 * 3, 0.0, 0.0⟩) ⟨5.3, 0.0, 0.0⟩) ⟨0.0, 0.0, -12.0⟩)
      (E.radians 180.0) ⟨0.0, 1.0, 0.0⟩)) ++
  (List.range 2).map (fun i =>
    (10, E.rotate (translate (translate (translate Mat4.identity
      ⟨(((i : Int) - 1 : Int) : α) * 5.5 * 7, 0.0, 0.0⟩) ⟨5.3, 0.0, 0.0⟩) ⟨0.0, 0.0, -12.0⟩)
      (E.radians 180.0) ⟨0.0, 1.0, 0.0⟩)) ++
  [(8, E.rotate (translate (translate Mat4.identity ⟨5.3, 0.0, 0.0⟩) ⟨0.0, 0.0, -12.0⟩)
      (E.radians 180.0) ⟨0.0, 1.0, 0.0⟩),
   (6, E.rotate (translate (translate Mat4.identity ⟨5.3, 0.0, 0.0⟩) ⟨0.0, 0.0, -12.0⟩)
      (E.radians 180.0) ⟨0.0, 1.0, 0.0⟩)]

/-! ### Sample frames -/

/-- A frame in which no key is held and the cursor rests at the centre of the window. -/
def idleInput {α : Type} [Field α] : FrameInput α :=
  { keyW := false, keyS := false, keyA := false, keyD := false, keyUp := false
    keyDown := false, keyL := false, keyEscape := false
    xpos := 512, ypos := 384, firstTime := 0, currentTime := 0 }

/-- A frame in which `S` and `L` are held and the cursor has moved. -/
def busyInput {α : Type} [Field α] : FrameInput α :=
  { keyW := false, keyS := true, keyA := false, keyD := false, keyUp := false
    keyDown := false, keyL := true, keyEscape := false
    xpos := 500, ypos := 400, firstTime := 0, currentTime := 1 }

/-- Stand-ins over the rationals for the library functions, to run the frame loop on
an example; the theorems hold for every choice of these functions. -/
def rationalExternals : Externals ℚ :=
  { cos := fun x => 1 - x * x / 2
    sin := fun x => x
    pi := 355 / 113
    radians := fun d => d * (355 / 113) / 180
    rotate := fun m _ _ => m
    perspective := fun _ _ _ _ => Mat4.identity
    lookAt := fun _ _ _ => Mat4.identity }

/-- Twelve default-constructed pieces in a vector. -/
def twelvePieces : StdVector (ChessPiece ℚ) := ⟨List.replicate 12 ChessPiece.new, 12⟩

/-! ## Runs of the controls -/

/-- A frame of one second in which `S` is the only key held and the cursor rests at
the centre of the window. -/
def sOnlyInput {α : Type} [Field α] : FrameInput α :=
  { keyW := false, keyS := true, keyA := false, keyD := false, keyUp := false
    keyDown := false, keyL := false, keyEscape := false
    xpos := 512, ypos := 384, firstTime := 0, currentTime := 1 }

/-- A frame in which `L` is the only key held. -/
def lOnlyInput {α : Type} [Field α] : FrameInput α :=
  { keyW := false, keyS := false, keyA := false, keyD := false, keyUp := false
    keyDown := false, keyL := true, keyEscape := false
    xpos := 512, ypos := 384, firstTime := 0, currentTime := 0 }

/-- The variables of `controls.cpp` after one call of `computeMatricesFromInputs` for
each element of `inputs`, one call per frame. -/
def runControls {α : Type} [LinearOrderedField α] (E : Externals α) :
    List (FrameInput α) → Controls α → Controls α
  | [], c => c
  | inp :: rest, c => runControls E rest (computeMatricesFromInputs E inp c)

/-- The number of frames in which `L` is pressed and was not pressed in the frame
before; `previous` is the state of `L` before the first frame. -/
def risingEdges : Bool → List Bool → Nat
  | _, [] => 0
  | previous, current :: rest =>
    (if current && !previous then 1 else 0) + risingEdges current rest

/-- A switch after `n` flips. -/
def flipped (switch : Bool) (n : Nat) : Bool := if n % 2 = 0 then switch else !switch

/-! ## The two halves of the frame's placement code -/

/-- The blocks of `drawPieces` before the comment `// Setup black pieces`. -/
def piecesBeforeBlack {α : Type} [Add α] [Mul α] [Neg α] [Zero α] [One α]
    [OfScientific α] [IntCast α] [NatCast α]
    (ProjectionMatrix ViewMatrix : Mat4 α)
    (spacing : α) (s : DrawState α) : Option (DrawState α) := do
  let s ← forLoop 8 (whitePawn ProjectionMatrix ViewMatrix spacing) s
  let s ← forLoop 2 (whiteKnight ProjectionMatrix ViewMatrix spacing) s
  let s ← forLoop 2 (whiteBishop ProjectionMatrix ViewMatrix spacing) s
  let s ← forLoop 2 (whiteRook ProjectionMatrix ViewMatrix spacing) s
  let s ← whiteKing ProjectionMatrix ViewMatrix s
  whiteQueen ProjectionMatrix ViewMatrix s

/-- The blocks of `drawPieces` from the comment `// Setup black pieces` on. -/
def setupBlackPieces {α : Type} [Add α] [Mul α] [Neg α] [Zero α] [One α]
    [OfScientific α] [IntCast α] [NatCast α]
    (E : Externals α)
    (ProjectionMatrix ViewMatrix : Mat4 α) (spacing : α) (s : DrawState α) :
    Option (DrawState α) := do
  let currentX : α := 5.0
  let s ← forLoop 8 (blackPawn ProjectionMatrix ViewMatrix spacing currentX) s
  let s ← forLoop 2 (blackKnight E ProjectionMatrix ViewMatrix spacing) s
  let s ← forLoop 2 (blackBishop E ProjectionMatrix ViewMatrix spacing) s
  let s ← forLoop 2 (blackRook E ProjectionMatrix ViewMatrix spacing) s
  let s ← blackKing E ProjectionMatrix ViewMatrix s
  blackQueen E ProjectionMatrix ViewMatrix s

/-- The piece indices rendered before `// Setup black pieces`, in order. -/
def indicesBeforeBlack : List Nat := [5, 5, 5, 5, 5, 5, 5, 5, 3, 3, 1, 1, 11, 11, 9, 7]

/-- The piece indices rendered from `// Setup black pieces` on, in order. -/
def indicesOfBlack : List Nat := [4, 4, 4, 4, 4, 4, 4, 4, 2, 2, 0, 0, 10, 10, 8, 6]

/-! ## The type `float` -/

/-- A value of type `float` (IEEE-754 binary32).  Every finite `float` is a whole
number of units of `2 ^ -149`, and is held as that number; the sign of a zero is not
kept.  `nonFinite` stands for the infinities and the NaNs: an addition, product or
negation with such an operand has such a result.  Each operation below rounds its
exact result once, to nearest with ties to even. -/
inductive Binary32 where
  | finite (units : Int)
  | nonFinite
deriving DecidableEq, Repr

/-- The number one in units of `2 ^ -149`: `2 ^ 149`. -/
def UNITS_PER_ONE : Nat := 713623846352979940529142984724747568191373312

/-- The number `2 ^ 128` in units of `2 ^ -149`: `2 ^ 277`.  A result that rounds to
this magnitude or more overflows. -/
def OVERFLOW_UNITS : Nat :=
  242833611528216133864932738352939863330300854881517440156476551217363035650651062272

/-- How many low bits a magnitude of `q` units loses to keep a 24-bit significand:
the number of halvings that bring `q` below `2 ^ 24`. -/
def significandShift : Nat → Nat → Nat
  | 0, _ => 0
  | fuel + 1, q => if q < 16777216 then 0 else significandShift fuel (q / 2) + 1

/-- The magnitude `a / d`, in units of `2 ^ -149`, rounded to the nearest magnitude
with a 24-bit significand, a tie going to the even significand. -/
def roundMagnitude (a d : Nat) : Nat :=
  let shift := significandShift (a / d) (a / d)
  let quantum := d * 2 ^ shift
  let k := a / quantum
  let r := a % quantum
  (if quantum < 2 * r ∨ (2 * r = quantum ∧ k % 2 = 1) then k + 1 else k) * 2 ^ shift

/-- The `float` nearest to the exact value `n / d`, given in units of `2 ^ -149`
(rounding to nearest, ties to even, the rounding of the default floating-point
environment and of the translation of literals). -/
def Binary32.round (n : Int) (d : Nat) : Binary32 :=
  if d = 0 then .nonFinite
  else if roundMagnitude n.natAbs d < OVERFLOW_UNITS then
    .finite (if n < 0 then -(roundMagnitude n.natAbs d : Int) else roundMagnitude n.natAbs d)
  else .nonFinite

/-- The sum of two `float`s: the exact sum, rounded. -/
def Binary32.add : Binary32 → Binary32 → Binary32
  | .finite a, .finite b => Binary32.round (a + b) 1
  | _, _ => .nonFinite

/-- The product of two `float`s: the exact product, rounded. -/
def Binary32.mul : Binary32 → Binary32 → Binary32
  | .finite a, .finite b => Binary32.round (a * b) UNITS_PER_ONE
  | _, _ => .nonFinite

/-- The negation of a `float`. -/
def Binary32.neg : Binary32 → Binary32
  | .finite a => .finite (-a)
  | .nonFinite => .nonFinite

/-- The conversion of an `int` to `float`. -/
def Binary32.ofInt (i : Int) : Binary32 := Binary32.round (i * UNITS_PER_ONE) 1

/-- The `float` denoted by a decimal literal with suffix `f`: `mantissa` times ten to
the power `decimalExponent`, or to minus that power when `exponentSign` is set. -/
def Binary32.ofScientific (mantissa : Nat) (exponentSign : Bool) (decimalExponent : Nat) :
    Binary32 :=
  if exponentSign then Binary32.round (mantissa * UNITS_PER_ONE) (10 ^ decimalExponent)
  else Binary32.round (mantissa * 10 ^ decimalExponent * UNITS_PER_ONE) 1

instance : Add Binary32 := ⟨Binary32.add⟩

instance : Mul Binary32 := ⟨Binary32.mul⟩

instance : Neg Binary32 := ⟨Binary32.neg⟩

instance : Zero Binary32 := ⟨.finite 0⟩

instance : One Binary32 := ⟨Binary32.ofInt 1⟩

instance : IntCast Binary32 := ⟨Binary32.ofInt⟩

instance : NatCast Binary32 := ⟨fun n => Binary32.ofInt n⟩

instance : OfScientific Binary32 := ⟨Binary32.ofScientific⟩

/-- The rational number a finite `float` stands for. -/
def Binary32.value : Binary32 → Option ℚ
  | .finite units => some ((units : ℚ) / UNITS_PER_ONE)
  | .nonFinite => none

/-- The `float` that stands for `m / 2 ^ e`, for `e` up to 149. -/
def Binary32.dyadic (m : Int) (e : Nat) : Binary32 := .finite (m * (2 ^ (149 - e) : Nat))

/-- Stand-ins for the library functions over `float`, to run the placement code on an
example; the theorems hold for every choice of these functions. -/
def floatExternals : Externals Binary32 :=
  { cos := fun _ => 1
    sin := fun x => x
    pi := 3.1415927
    radians := fun d => d * 0.017453292
    rotate := fun m _ _ => m
    perspective := fun _ _ _ _ => Mat4.identity
    lookAt := fun _ _ _ => Mat4.identity }

/-- Twelve default-constructed pieces with `float` members. -/
def twelveFloatPieces : List (ChessPiece Binary32) := List.replicate 12 ChessPiece.new

/-! ## Pawn placement as the claims describe it -/

/-- The matrix of the pure translation by `t`. -/
def translation {α : Type} [Zero α] [One α] (t : Vec3 α) : Mat4 α :=
  ⟨⟨1, 0, 0, 0⟩, ⟨0, 1, 0, 0⟩, ⟨0, 0, 1, 0⟩, ⟨t.x, t.y, t.z, 1⟩⟩

/-- The position `((col - 1) * 5.5 - 27.3, 0, 30)` of the pawn of piece 5 in column
`col`, in exact arithmetic. -/
def whitePawnPosition {α : Type} [Field α] (col : Nat) : Vec3 α :=
  ⟨((col : α) - 1) * 5.5 - 27.3, 0, 30⟩

/-- The position `(5 + (col - 1) * 5.5 - 32, 0, 45)` of the pawn of piece 4 in column
`col`, in exact arithmetic. -/
def blackPawnPosition {α : Type} [Field α] (col : Nat) : Vec3 α :=
  ⟨5 + ((col : α) - 1) * 5.5 - 32, 0, 45⟩

/-- The sum, in `float` arithmetic, of the `x` coordinates of the two translations of
the pawn of piece 5 in column `col`: `-27.3f + (col - 1) * 5.5f`. -/
def whitePawnX (col : Nat) : Binary32 := -27.3 + (((col : Int) - 1 : Int) : Binary32) * 5.5

/-- The sum, in `float` arithmetic, of the `x` coordinates of the two translations of
the pawn of piece 4 in column `col`: `-32.0f + (5.0f + (col - 1) * 5.5f)`. -/
def blackPawnX (col : Nat) : Binary32 :=
  -32.0 + (5.0 + (((col : Int) - 1 : Int) : Binary32) * 5.5)
/-! ## Theorems: `loadOBJ` -/

theorem readLoop_endOfFile {α : Type} [Neg α] (file : List (ObjLine α)) (t : ObjTemps α)
    (hfit : ∀ l ∈ file, fitsHeader l.lineHeader)
    (hscan : ∀ l ∈ faceLines file, scansAsFace l) :
    readLoop file t = .endOfFile (readResult file t) := by
  induction file generalizing t with
  | nil => simp [readLoop, readResult, faceLines, corners, vLines, vtLines, vnLines]
  | cons l rest ih =>
    have hl : fitsHeader l.lineHeader := hfit l (List.mem_cons_self _ _)
    have hrest : ∀ m ∈ rest, fitsHeader m.lineHeader :=
      fun m hm => hfit m (List.mem_cons_of_mem _ hm)
    unfold readLoop
    rw [if_neg (not_not.mpr hl)]
    by_cases hv : l.lineHeader = "v"
    · have hs : ∀ m ∈ faceLines rest, scansAsFace m := by
        simpa [faceLines, List.filter_cons, hv] using hscan
      simp [hv, ih _ hrest hs, readResult, faceLines, corners, vLines, vtLines, vnLines,
        List.filter_cons]
    · by_cases hvt : l.lineHeader = "vt"
      · have hs : ∀ m ∈ faceLines rest, scansAsFace m := by
          simpa [faceLines, List.filter_cons, hvt] using hscan
        simp [hvt, ih _ hrest hs, readResult, faceLines, corners, vLines, vtLines, vnLines,
          List.filter_cons]
      · by_cases hvn : l.lineHeader = "vn"
        · have hs : ∀ m ∈ faceLines rest, scansAsFace m := by
            simpa [faceLines, List.filter_cons, hvn] using hscan
          simp [hvn, ih _ hrest hs, readResult, faceLines, corners, vLines, vtLines,
            vnLines, List.filter_cons]
        · by_cases hf : l.lineHeader = "f"
          · have hs : scansAsFace l ∧ ∀ m ∈ faceLines rest, scansAsFace m := by
              simpa [faceLines, List.filter_cons, hf] using hscan
            have hm : l.matched = 9 := hs.1
            simp [hf, hm, ih _ hrest hs.2, readResult, faceLines, corners, vLines, vtLines,
              vnLines, List.filter_cons, lineCorners]
          · have hs : ∀ m ∈ faceLines rest, scansAsFace m := by
              simpa [faceLines, List.filter_cons, hf] using hscan
            simp [hv, hvt, hvn, hf, ih _ hrest hs, readResult, faceLines, corners, vLines,
              vtLines, vnLines, List.filter_cons]

theorem readLoop_cons {α : Type} [Neg α] (l : ObjLine α) (rest : List (ObjLine α))
    (t : ObjTemps α) :
    (¬ fitsHeader l.lineHeader ∧ readLoop (l :: rest) t = .overflow) ∨
    (fitsHeader l.lineHeader ∧ l.lineHeader = "f" ∧ ¬ scansAsFace l ∧
      readLoop (l :: rest) t = .scanFailed) ∨
    (fitsHeader l.lineHeader ∧ (l.lineHeader = "f" → scansAsFace l) ∧
      ∃ t', readLoop (l :: rest) t = readLoop rest t') := by
  by_cases hl : fitsHeader l.lineHeader
  · right
    have hl' : ¬ ¬ fitsHeader l.lineHeader := not_not.mpr hl
    by_cases hv : l.lineHeader = "v"
    · exact Or.inr ⟨hl, by simp [hv], _, by rw [readLoop, if_neg hl', if_pos hv]⟩
    · by_cases hvt : l.lineHeader = "vt"
      · exact Or.inr ⟨hl, by simp [hvt], _, by
          rw [readLoop, if_neg hl', if_neg hv, if_pos hvt]⟩
      · by_cases hvn : l.lineHeader = "vn"
        · exact Or.inr ⟨hl, by simp [hvn], _, by
            rw [readLoop, if_neg hl', if_neg hv, if_neg hvt, if_pos hvn]⟩
        · by_cases hf : l.lineHeader = "f"
          · by_cases hm : l.matched = 9
            · exact Or.inr ⟨hl, fun _ => hm, _, by
                rw [readLoop, if_neg hl', if_neg hv, if_neg hvt, if_neg hvn, if_pos hf,
                  if_neg (not_not.mpr hm)]⟩
            · exact Or.inl ⟨hl, hf, hm, by
                rw [readLoop, if_neg hl', if_neg hv, if_neg hvt, if_neg hvn, if_pos hf,
                  if_pos hm]⟩
          · exact Or.inr ⟨hl, fun h => absurd h hf, _, by
              rw [readLoop, if_neg hl', if_neg hv, if_neg hvt, if_neg hvn, if_neg hf]⟩
  · left
    exact ⟨hl, by rw [readLoop, if_pos hl]⟩

theorem readLoop_endOfFile_inv {α : Type} [Neg α] (file : List (ObjLine α)) :
    ∀ (t t' : ObjTemps α), readLoop file t = .endOfFile t' →
      (∀ l ∈ file, fitsHeader l.lineHeader) ∧ ∀ l ∈ faceLines file, scansAsFace l := by
  induction file with
  | nil => intro t t' _; simp [faceLines]
  | cons l rest ih =>
    intro t t' h
    rcases readLoop_cons l rest t with ⟨_, e⟩ | ⟨_, _, _, e⟩ | ⟨hl, hs, t1, e⟩
    · rw [e] at h; cases h
    · rw [e] at h; cases h
    · rw [e] at h
      obtain ⟨h1, h2⟩ := ih t1 t' h
      refine ⟨?_, ?_⟩
      · intro m hm
        rcases List.mem_cons.mp hm with rfl | hm
        · exact hl
        · exact h1 m hm
      · intro m hm
        simp only [faceLines, List.mem_filter, decide_eq_true_eq, List.mem_cons] at hm
        rcases hm with ⟨rfl | hm, hf⟩
        · exact hs hf
        · exact h2 m (by simp [faceLines, hm, hf])

theorem readLoop_endOfFile_iff {α : Type} [Neg α] (file : List (ObjLine α))
    (t t' : ObjTemps α) :
    readLoop file t = .endOfFile t' ↔
      (∀ l ∈ file, fitsHeader l.lineHeader) ∧ (∀ l ∈ faceLines file, scansAsFace l) ∧
        t' = readResult file t := by
  constructor
  · intro h
    obtain ⟨h1, h2⟩ := readLoop_endOfFile_inv file t t' h
    rw [readLoop_endOfFile file t h1 h2] at h
    exact ⟨h1, h2, by cases h; rfl⟩
  · rintro ⟨h1, h2, rfl⟩
    exact readLoop_endOfFile file t h1 h2

theorem readLoop_scanFailed_iff {α : Type} [Neg α] (file : List (ObjLine α)) :
    ∀ t : ObjTemps α, readLoop file t = .scanFailed ↔
      ∃ before l after, file = before ++ l :: after ∧
        (∀ m ∈ before, fitsHeader m.lineHeader) ∧ fitsHeader l.lineHeader ∧
        l.lineHeader = "f" ∧ ¬ scansAsFace l := by
  induction file with
  | nil =>
    intro t
    simp [readLoop]
  | cons a rest ih =>
    intro t
    rcases readLoop_cons a rest t with ⟨ha, e⟩ | ⟨ha, hf, hs, e⟩ | ⟨ha, hs, t1, e⟩
    · rw [e]
      constructor
      · intro h; cases h
      · rintro ⟨before, l, after, hfile, hb, hl, -, -⟩
        cases before with
        | nil =>
          simp only [List.nil_append, List.cons.injEq] at hfile
          exact absurd (hfile.1 ▸ hl) ha
        | cons b before =>
          simp only [List.cons_append, List.cons.injEq] at hfile
          exact absurd (hfile.1 ▸ hb b (List.mem_cons_self _ _)) ha
    · rw [e]
      exact ⟨fun _ => ⟨[], a, rest, rfl, by simp, ha, hf, hs⟩, fun _ => rfl⟩
    · rw [e, ih t1]
      constructor
      · rintro ⟨before, l, after, hfile, hb, hl, hf, hns⟩
        refine ⟨a :: before, l, after, by simp [hfile], ?_, hl, hf, hns⟩
        intro m hm
        rcases List.mem_cons.mp hm with rfl | hm
        · exact ha
        · exact hb m hm
      · rintro ⟨before, l, after, hfile, hb, hl, hf, hns⟩
        cases before with
        | nil =>
          simp only [List.nil_append, List.cons.injEq] at hfile
          obtain ⟨rfl, -⟩ := hfile
          exact absurd (hs hf) hns
        | cons b before =>
          simp only [List.cons_append, List.cons.injEq] at hfile
          exact ⟨before, l, after, hfile.2, fun m hm => hb m (List.mem_cons_of_mem _ hm),
            hl, hf, hns⟩

theorem fillLoop_some {α : Type} (t : ObjTemps α) (n : Nat) :
    ∀ (i : Nat) (out out' : ObjOut α), fillLoop t n i out = some out' →
      ∃ vs us ns, out'.out_vertices = out.out_vertices ++ vs ∧
        out'.out_uvs = out.out_uvs ++ us ∧ out'.out_normals = out.out_normals ++ ns ∧
        vs.length = n ∧ us.length = n ∧ ns.length = n ∧
        ∀ j, j < n → ∃ vi ui ni v u nr,
          t.vertexIndices[i + j]? = some vi ∧ t.uvIndices[i + j]? = some ui ∧
          t.normalIndices[i + j]? = some ni ∧
          t.temp_vertices[pred32 vi]? = some v ∧ t.temp_uvs[pred32 ui]? = some u ∧
          t.temp_normals[pred32 ni]? = some nr ∧
          vs[j]? = some v ∧ us[j]? = some u ∧ ns[j]? = some nr := by
  induction n with
  | zero =>
    intro i out out' h
    simp only [fillLoop, Option.some.injEq] at h
    subst h
    exact ⟨[], [], [], by simp⟩
  | succ n ih =>
    intro i out out' h
    simp only [fillLoop, Option.bind_eq_bind, Option.bind_eq_some] at h
    obtain ⟨vi, hvi, ui, hui, ni, hni, v, hv, u, hu, nr, hnr, hrec⟩ := h
    obtain ⟨vs, us, ns, h1, h2, h3, l1, l2, l3, hj⟩ := ih (i + 1) _ out' hrec
    refine ⟨v :: vs, u :: us, nr :: ns, by simpa using h1, by simpa using h2,
      by simpa using h3, by simp [l1], by simp [l2], by simp [l3], ?_⟩
    intro j hjlt
    cases j with
    | zero => exact ⟨vi, ui, ni, v, u, nr, by simpa using hvi, by simpa using hui,
        by simpa using hni, hv, hu, hnr, by simp, by simp, by simp⟩
    | succ j =>
      obtain ⟨vi', ui', ni', v', u', nr', a1, a2, a3, a4, a5, a6, a7, a8, a9⟩ :=
        hj j (by omega)
      have e : i + (j + 1) = i + 1 + j := by omega
      exact ⟨vi', ui', ni', v', u', nr', by rw [e]; exact a1, by rw [e]; exact a2,
        by rw [e]; exact a3, a4, a5, a6, by simpa using a7, by simpa using a8,
        by simpa using a9⟩

theorem fillLoop_isSome {α : Type} (t : ObjTemps α) (n : Nat) :
    ∀ (i : Nat) (out : ObjOut α),
      (∀ j, j < n → ∃ vi ui ni, t.vertexIndices[i + j]? = some vi ∧
          t.uvIndices[i + j]? = some ui ∧ t.normalIndices[i + j]? = some ni ∧
          pred32 vi < t.temp_vertices.length ∧ pred32 ui < t.temp_uvs.length ∧
          pred32 ni < t.temp_normals.length) →
      ∃ out', fillLoop t n i out = some out' := by
  induction n with
  | zero => intro i out _; exact ⟨out, rfl⟩
  | succ n ih =>
    intro i out h
    obtain ⟨vi, ui, ni, a1, a2, a3, b1, b2, b3⟩ := h 0 (by omega)
    simp only [Nat.add_zero] at a1 a2 a3
    obtain ⟨v, hv⟩ : ∃ v, t.temp_vertices[pred32 vi]? = some v :=
      ⟨_, List.getElem?_eq_getElem b1⟩
    obtain ⟨u, hu⟩ : ∃ u, t.temp_uvs[pred32 ui]? = some u :=
      ⟨_, List.getElem?_eq_getElem b2⟩
    obtain ⟨nr, hnr⟩ : ∃ nr, t.temp_normals[pred32 ni]? = some nr :=
      ⟨_, List.getElem?_eq_getElem b3⟩
    obtain ⟨out', hout⟩ := ih (i + 1)
      { out_vertices := out.out_vertices ++ [v]
        out_uvs := out.out_uvs ++ [u]
        out_normals := out.out_normals ++ [nr] }
      (fun j hj => by
        have e : i + 1 + j = i + (j + 1) := by omega
        rw [e]
        exact h (j + 1) (by omega))
    refine ⟨out', ?_⟩
    simp only [fillLoop, Option.bind_eq_bind, a1, a2, a3, Option.some_bind, hv, hu, hnr]
    exact hout

theorem toUnsigned_lt (i : Int) : toUnsigned i < 4294967296 := by
  unfold toUnsigned
  omega

theorem pred32_of_pos (n : Nat) (h1 : 1 ≤ n) (h2 : n < 4294967296) : pred32 n = n - 1 := by
  unfold pred32
  omega

theorem pred32_zero : pred32 0 = 4294967295 := by
  unfold pred32
  omega

theorem corners_length {α : Type} (file : List (ObjLine α)) :
    (corners file).length = 3 * (faceLines file).length := by
  unfold corners
  induction faceLines file with
  | nil => simp
  | cons l rest ih => simp [List.flatMap_cons, lineCorners, ih]; omega

theorem corners_lt {α : Type} (file : List (ObjLine α)) (c : Corner)
    (hc : c ∈ corners file) :
    c.vertexIndex < 4294967296 ∧ c.uvIndex < 4294967296 ∧ c.normalIndex < 4294967296 := by
  unfold corners at hc
  simp only [List.mem_flatMap] at hc
  obtain ⟨l, _, hl⟩ := hc
  simp only [lineCorners, List.mem_cons, List.mem_singleton, List.not_mem_nil,
    or_false] at hl
  rcases hl with h | h | h <;> subst h <;> exact ⟨toUnsigned_lt _, toUnsigned_lt _, toUnsigned_lt _⟩

theorem lineNumbered_of_pred32 {β : Type} (lines : List β) (n : Nat) (b : β)
    (h1 : 1 ≤ n) (h2 : n < 4294967296) (h : lines[pred32 n]? = some b) :
    lineNumbered lines n = some b := by
  unfold lineNumbered
  rw [pred32_of_pos n h1 h2] at h
  rw [if_neg (by omega)]
  exact h

theorem pos_of_pred32_lt {β : Type} (lines : List β) (n : Nat) (b : β)
    (hlen : lines.length < 4294967296) (h : lines[pred32 n]? = some b) : 1 ≤ n := by
  by_contra hn
  have h0 : n = 0 := by omega
  subst h0
  rw [pred32_zero] at h
  have := (List.getElem?_eq_some.mp h).1
  omega

theorem loadOBJ_true_iff {α : Type} [Neg α] (fopen : String → Option (List (ObjLine α)))
    (path : String) (file : List (ObjLine α)) (out o : ObjOut α)
    (hfile : fopen path = some file) :
    loadOBJ fopen path out = some (true, o) ↔
      (∀ l ∈ file, fitsHeader l.lineHeader) ∧ (∀ l ∈ faceLines file, scansAsFace l) ∧
        (corners file).length < 4294967296 ∧
        fillLoop (readResult file ObjTemps.empty) (corners file).length 0 out = some o := by
  have key := readLoop_endOfFile_iff file ObjTemps.empty
  unfold loadOBJ
  rw [hfile]
  cases h : readLoop file ObjTemps.empty with
  | overflow =>
    have := key (readResult file ObjTemps.empty)
    simp only [h, reduceCtorEq, false_iff, and_true, not_and] at this
    simp only [h, reduceCtorEq, false_iff, not_and]
    intro h1 h2
    exact absurd h2 (this h1)
  | scanFailed =>
    have := key (readResult file ObjTemps.empty)
    simp only [h, reduceCtorEq, false_iff, and_true, not_and] at this
    simp only [h, Option.some.injEq, Prod.mk.injEq, Bool.false_eq_true, false_and, false_iff,
      not_and]
    intro h1 h2
    exact absurd h2 (this h1)
  | endOfFile t =>
    obtain ⟨h1, h2, rfl⟩ := (key t).mp h
    have hlen : (readResult file ObjTemps.empty).vertexIndices.length =
        (corners file).length := by
      simp [readResult, ObjTemps.empty]
    simp only [h, hlen, UINT_RANGE]
    by_cases hn : (corners file).length < 4294967296
    · simp only [hn, if_true, Option.map_eq_some', Prod.mk.injEq, true_and, exists_eq_right]
      exact ⟨fun hf => ⟨h1, h2, hf⟩, fun hf => hf.2.2⟩
    · simp [hn]

theorem loadOBJ_false_iff {α : Type} [Neg α] (fopen : String → Option (List (ObjLine α)))
    (path : String) (file : List (ObjLine α)) (out o : ObjOut α)
    (hfile : fopen path = some file) :
    loadOBJ fopen path out = some (false, o) ↔
      readLoop file ObjTemps.empty = .scanFailed ∧ o = out := by
  unfold loadOBJ
  rw [hfile]
  cases h : readLoop file ObjTemps.empty with
  | overflow => simp [h]
  | scanFailed => simp [h, eq_comm]
  | endOfFile t =>
    by_cases hn : t.vertexIndices.length < UINT_RANGE
    · simp [h, hn]
    · simp [h, hn]

/-- C1. When `loadOBJ` returns `true` on a file with `F` face lines, starting from
empty output vectors, each output vector has `3 * F` elements, and at every face
corner `i` (in file order) whose indices are one-based (at least 1): `out_vertices[i]`
is the position of the `v` line numbered by the vertex index, `out_uvs[i]` is the
`vt` line numbered by the uv index with its second coordinate negated, and
`out_normals[i]` is the `vn` line numbered by the normal index.  An index is at
least 1 whenever the file has fewer than `2 ^ 32` lines of the kind it numbers. -/
theorem loadOBJ_corner_attributes {α : Type} [Neg α]
    (fopen : String → Option (List (ObjLine α))) (path : String)
    (file : List (ObjLine α)) (o : ObjOut α)
    (hfile : fopen path = some file)
    (hret : loadOBJ fopen path ⟨[], [], []⟩ = some (true, o)) :
    o.out_vertices.length = 3 * (faceLines file).length ∧
    o.out_uvs.length = 3 * (faceLines file).length ∧
    o.out_normals.length = 3 * (faceLines file).length ∧
    (corners file).length = 3 * (faceLines file).length ∧
    ∀ (i : Nat) (c : Corner), (corners file)[i]? = some c →
      ((vLines file).length < 4294967296 → 1 ≤ c.vertexIndex) ∧
      ((vtLines file).length < 4294967296 → 1 ≤ c.uvIndex) ∧
      ((vnLines file).length < 4294967296 → 1 ≤ c.normalIndex) ∧
      (1 ≤ c.vertexIndex → ∃ p, lineNumbered (vLines file) c.vertexIndex = some p ∧
        o.out_vertices[i]? = some p) ∧
      (1 ≤ c.uvIndex → ∃ q, lineNumbered (vtLines file) c.uvIndex = some q ∧
        o.out_uvs[i]? = some ⟨q.x, -q.y⟩) ∧
      (1 ≤ c.normalIndex → ∃ nr, lineNumbered (vnLines file) c.normalIndex = some nr ∧
        o.out_normals[i]? = some nr) := by
  obtain ⟨-, -, -, hret⟩ := (loadOBJ_true_iff fopen path file _ o hfile).mp hret
  obtain ⟨vs, us, ns, h1, h2, h3, l1, l2, l3, hj⟩ := fillLoop_some _ _ _ _ _ hret
  simp only [List.nil_append] at h1 h2 h3
  have hlen := corners_length file
  refine ⟨by rw [h1, l1, hlen], by rw [h2, l2, hlen], by rw [h3, l3, hlen], hlen, ?_⟩
  intro i c hc
  have hi : i < (corners file).length := (List.getElem?_eq_some.mp hc).1
  have hmem : c ∈ corners file := List.getElem?_mem hc
  obtain ⟨b1, b2, b3⟩ := corners_lt file c hmem
  obtain ⟨vi, ui, ni, v, u, nr, a1, a2, a3, a4, a5, a6, a7, a8, a9⟩ := hj i hi
  simp only [readResult, ObjTemps.empty, List.nil_append, Nat.zero_add,
    List.getElem?_map, hc, Option.map_some', Option.some.injEq] at a1 a2 a3 a4 a5 a6
  subst a1 a2 a3
  rw [h1, h2, h3, a7, a8, a9]
  obtain ⟨q, hq, hqu⟩ : ∃ q, (vtLines file)[pred32 c.uvIndex]? = some q ∧
      u = ⟨q.x, -q.y⟩ := by
    cases hq : (vtLines file)[pred32 c.uvIndex]? with
    | none => simp [hq] at a5
    | some q => exact ⟨q, rfl, by simpa [hq] using a5.symm⟩
  refine ⟨fun hl => pos_of_pred32_lt _ _ _ hl a4, fun hl => pos_of_pred32_lt _ _ _ hl hq,
    fun hl => pos_of_pred32_lt _ _ _ hl a6, ?_, ?_, ?_⟩
  · exact fun h => ⟨v, lineNumbered_of_pred32 _ _ _ h b1 a4, rfl⟩
  · exact fun h => ⟨q, lineNumbered_of_pred32 _ _ _ h b2 hq, by rw [hqu]⟩
  · exact fun h => ⟨nr, lineNumbered_of_pred32 _ _ _ h b3 a6, rfl⟩

/-- Witness for C1: the sample file is read successfully. -/
theorem loadOBJ_corner_attributes_witness :
    loadOBJ (fun _ => some sampleObj) "board.obj" ⟨[], [], []⟩ = some (true, sampleOut) ∧
    sampleOut.out_vertices.length = 3 * (faceLines sampleObj).length ∧
    sampleOut.out_uvs.length = 3 * (faceLines sampleObj).length ∧
    sampleOut.out_normals.length = 3 * (faceLines sampleObj).length :=
  have e : loadOBJ (fun _ => some sampleObj) "board.obj" ⟨[], [], []⟩ =
      some (true, sampleOut) := by decide
  have h := loadOBJ_corner_attributes (fun _ => some sampleObj) "board.obj" sampleObj
    sampleOut rfl e
  ⟨e, h.1, h.2.1, h.2.2.1⟩

theorem indexInRange_iff {β : Type} (lines : List β) (index : Nat)
    (hlen : lines.length < 4294967296) (hidx : index < 4294967296) :
    indexInRange lines index ↔ 1 ≤ index ∧ index ≤ lines.length := by
  unfold indexInRange pred32
  omega

theorem fillLoop_readResult_isSome_iff {α : Type} [Neg α] (file : List (ObjLine α))
    (out : ObjOut α) :
    (∃ o, fillLoop (readResult file ObjTemps.empty) (corners file).length 0 out = some o) ↔
      cornersInRange file := by
  constructor
  · rintro ⟨o, ho⟩ c hc
    obtain ⟨vs, us, ns, -, -, -, -, -, -, hj⟩ := fillLoop_some _ _ _ _ _ ho
    obtain ⟨i, hi, rfl⟩ := List.getElem_of_mem hc
    obtain ⟨vi, ui, ni, v, u, nr, a1, a2, a3, a4, a5, a6, -, -, -⟩ := hj i hi
    simp only [readResult, ObjTemps.empty, List.nil_append, Nat.zero_add,
      List.getElem?_map, List.getElem?_eq_getElem hi, Option.map_some',
      Option.some.injEq] at a1 a2 a3 a4 a5 a6
    subst a1 a2 a3
    refine ⟨(List.getElem?_eq_some.mp a4).1, ?_, (List.getElem?_eq_some.mp a6).1⟩
    cases hq : (vtLines file)[pred32 (corners file)[i].uvIndex]? with
    | none => simp [hq] at a5
    | some q => exact (List.getElem?_eq_some.mp hq).1
  · intro h
    apply fillLoop_isSome
    intro j hj
    obtain ⟨c, hc⟩ : ∃ c, (corners file)[j]? = some c := ⟨_, List.getElem?_eq_getElem hj⟩
    obtain ⟨h1, h2, h3⟩ := h c (List.getElem?_mem hc)
    unfold indexInRange at h1 h2 h3
    refine ⟨c.vertexIndex, c.uvIndex, c.normalIndex, ?_, ?_, ?_, ?_, ?_, ?_⟩
    · simp [readResult, ObjTemps.empty, hc]
    · simp [readResult, ObjTemps.empty, hc]
    · simp [readResult, ObjTemps.empty, hc]
    · simpa [readResult, ObjTemps.empty] using h1
    · simpa [readResult, ObjTemps.empty] using h2
    · simpa [readResult, ObjTemps.empty] using h3

theorem utf8ByteSize_replicate (n : Nat) (c : Char) :
    (String.mk (List.replicate n c)).utf8ByteSize = n * c.utf8Size := by
  induction n with
  | zero => simp [String.utf8ByteSize, String.utf8ByteSize.go]
  | succ n ih =>
    simp only [String.utf8ByteSize, List.replicate_succ, String.utf8ByteSize.go] at ih ⊢
    rw [ih]
    ring

theorem longWord_overflows : ¬ fitsHeader longWord := by
  rw [fitsHeader, longWord, utf8ByteSize_replicate]
  decide

/-- The file `longWordObj` opens and has no face line, yet `loadOBJ` returns neither
`true` nor `false` on it: its first word overruns `lineHeader`. -/
theorem loadOBJ_longWord_undefined :
    ¬ fitsHeader longWord ∧ faceLines longWordObj = [] ∧
    loadOBJ (fun _ => some longWordObj) "board.obj" ⟨[], [], []⟩ = none :=
  ⟨longWord_overflows, rfl,
    by simp [loadOBJ, longWordObj, readLoop, objOther, longWord_overflows]⟩

/-- The file `badFaceObj` has a face line that does not scan, read before the word
that does not fit: `loadOBJ` returns `false`. -/
theorem loadOBJ_badFace_false :
    loadOBJ (fun _ => some badFaceObj) "board.obj" ⟨[], [], []⟩ =
      some (false, ⟨[], [], []⟩) := by
  decide


/-! ## Theorems: `loadAssImp` -/

@[simp]
theorem Vec3.eta {α : Type} (p : Vec3 α) : (⟨p.x, p.y, p.z⟩ : Vec3 α) = p := rfl

theorem map_drop_cons {β γ : Type} (f : β → γ) (a : List β) (i : Nat) (h : i < a.length) :
    f (a.get ⟨i, h⟩) :: List.drop (i + 1) (a.map f) = List.drop i (a.map f) := by
  have e : a.drop i = a.get ⟨i, h⟩ :: a.drop (i + 1) := by simp
  rw [← List.map_drop, ← List.map_drop, e, List.map_cons]

theorem vertexLoop_eq {α : Type} (mesh : AiMesh α) (n : Nat) :
    ∀ (i : Nat) (piece : ChessPiece α), i + n = mesh.mVertices.length →
      vertexLoop mesh n i piece = some
        { piece with
          vertices := piece.vertices ++ mesh.mVertices.drop i
          uvs := piece.uvs ++ (meshUvs mesh).drop i
          normals := piece.normals ++ (meshNormals mesh).drop i } := by
  induction n with
  | zero =>
    intro i piece h
    have h1 : mesh.mVertices.length ≤ i := by omega
    have h2 : (meshUvs mesh).length ≤ i := by
      unfold meshUvs
      split
      · cases hc : mesh.mTextureCoords0 with
        | none => simp
        | some a => simpa [mesh.textureCoords_length a hc] using h1
      · simp
    have h3 : (meshNormals mesh).length ≤ i := by
      unfold meshNormals
      split
      · cases hc : mesh.mNormals with
        | none => simp
        | some a => simpa [mesh.normals_length a hc] using h1
      · simp
    simp [vertexLoop, List.drop_eq_nil_of_le h1, List.drop_eq_nil_of_le h2,
      List.drop_eq_nil_of_le h3]
  | succ n ih =>
    intro i piece h
    have hi : i < mesh.mVertices.length := by omega
    have hpos : 0 < mesh.mNumVertices := by unfold AiMesh.mNumVertices; omega
    have hih := fun q => ih (i + 1) q (by omega : i + 1 + n = mesh.mVertices.length)
    unfold vertexLoop
    cases hc : mesh.mTextureCoords0 with
    | none =>
      cases hm : mesh.mNormals with
      | none =>
        simp [List.getElem?_eq_getElem hi, AiMesh.HasTextureCoords0, AiMesh.HasNormals, hc,
          hm, hih, meshUvs, meshNormals]
      | some b =>
        have hb : i < b.length := by rw [mesh.normals_length b hm]; exact hi
        simp [List.getElem?_eq_getElem hi, AiMesh.HasTextureCoords0, AiMesh.HasNormals, hc,
          hm, hpos, readArray, List.getElem?_eq_getElem hb, hih, meshUvs, meshNormals]
    | some a =>
      have ha : i < a.length := by rw [mesh.textureCoords_length a hc]; exact hi
      cases hm : mesh.mNormals with
      | none =>
        simp [List.getElem?_eq_getElem hi, AiMesh.HasTextureCoords0, AiMesh.HasNormals, hc,
          hm, hpos, readArray, List.getElem?_eq_getElem ha, hih, meshUvs, meshNormals]
        exact map_drop_cons (fun uv : Vec3 α => (⟨uv.x, uv.y⟩ : Vec2 α)) a i ha
      | some b =>
        have hb : i < b.length := by rw [mesh.normals_length b hm]; exact hi
        simp [List.getElem?_eq_getElem hi, AiMesh.HasTextureCoords0, AiMesh.HasNormals, hc,
          hm, hpos, readArray, List.getElem?_eq_getElem ha, List.getElem?_eq_getElem hb,
          hih, meshUvs, meshNormals]
        exact map_drop_cons (fun uv : Vec3 α => (⟨uv.x, uv.y⟩ : Vec2 α)) a i ha

theorem indexLoop_three {α : Type} (face : AiFace) (piece : ChessPiece α) :
    indexLoop face 3 0 piece =
      if 3 ≤ face.mIndices.length then
        some { piece with
          indices := piece.indices ++ (face.mIndices.take 3).map (fun index => index % 65536) }
      else none := by
  rcases h : face.mIndices with _ | ⟨a, _ | ⟨b, _ | ⟨c, l⟩⟩⟩ <;> simp [indexLoop, h]

theorem faceLoop_eq {α : Type} (faces : List AiFace) :
    ∀ piece : ChessPiece α, faceLoop faces piece =
      if ∀ face ∈ faces, 3 ≤ face.mIndices.length then
        some { piece with
          indices := piece.indices ++
            faces.flatMap (fun face => (face.mIndices.take 3).map (fun index => index % 65536)) }
      else none := by
  induction faces with
  | nil => intro piece; simp [faceLoop]
  | cons face rest ih =>
    intro piece
    unfold faceLoop
    rw [indexLoop_three]
    by_cases h3 : 3 ≤ face.mIndices.length
    · by_cases hr : ∀ f ∈ rest, 3 ≤ f.mIndices.length
      · simp [h3, hr, ih]
      · simp only [h3, if_true, Option.bind_eq_bind, Option.some_bind, ih, if_neg hr]
        rw [if_neg]
        intro hall
        exact hr (fun f hf => hall f (List.mem_cons_of_mem _ hf))
    · simp [h3]

theorem textureStep_eq {σ : Type} (loadChessTexture : String → σ → Nat × σ) (meshIndex : Nat)
    (gl : σ) :
    textureStep loadChessTexture meshIndex gl =
      if h : meshIndex < textureFiles.length then
        loadChessTexture (textureFiles.get ⟨meshIndex, h⟩) gl
      else (0, gl) := by
  unfold textureStep
  by_cases h : meshIndex < textureFiles.length
  · rw [dif_pos h, List.getElem?_eq_getElem h]
    rfl
  · rw [dif_neg h, List.getElem?_eq_none (by omega)]

theorem buildPiece_eq {α σ : Type} [Zero α] [One α]
    (loadChessTexture : String → σ → Nat × σ) (mesh : AiMesh α) (meshIndex : Nat) (gl : σ) :
    buildPiece loadChessTexture mesh meshIndex gl =
      if triangulated mesh then
        some (pieceOfMesh mesh (textureStep loadChessTexture meshIndex gl).1,
          (textureStep loadChessTexture meshIndex gl).2)
      else none := by
  unfold buildPiece
  dsimp only
  rw [vertexLoop_eq mesh _ 0 _ (by simp [AiMesh.mNumVertices])]
  simp only [Option.bind_eq_bind, Option.some_bind, faceLoop_eq, textureStep_eq]
  by_cases ht : triangulated mesh
  · have ht' : ∀ face ∈ mesh.mFaces, 3 ≤ face.mIndices.length := ht
    rw [if_pos ht, if_pos ht']
    by_cases hk : meshIndex < textureFiles.length
    · simp [hk, pieceOfMesh, ChessPiece.new, meshIndices]
    · simp [hk, pieceOfMesh, ChessPiece.new, meshIndices]
  · have ht' : ¬ ∀ face ∈ mesh.mFaces, 3 ≤ face.mIndices.length := ht
    rw [if_neg ht, if_neg ht']
    rfl

theorem pieceOfMesh_copy {α : Type} [Zero α] [One α] (mesh : AiMesh α) (texture : Nat) :
    (pieceOfMesh mesh texture).copy = pieceOfMesh mesh texture := rfl

theorem ChessPiece.copy_copy {α : Type} (p : ChessPiece α) : p.copy.copy = p.copy := rfl

theorem push_back_elems {α : Type} (x : ChessPiece α) (v : StdVector (ChessPiece α)) :
    (v.push_back ChessPiece.copy x).elems = v.elems ++ [x.copy] ∨
    (v.push_back ChessPiece.copy x).elems = v.elems.map ChessPiece.copy ++ [x.copy] := by
  unfold StdVector.push_back
  split
  · exact Or.inl rfl
  · exact Or.inr rfl

theorem reserve_elems {α : Type} (n : Nat) (v : StdVector (ChessPiece α)) :
    (v.reserve ChessPiece.copy n).elems = v.elems ∨
    (v.reserve ChessPiece.copy n).elems = v.elems.map ChessPiece.copy := by
  unfold StdVector.reserve
  split
  · exact Or.inr rfl
  · exact Or.inl rfl

theorem meshLoop_some {α σ : Type} [Zero α] [One α]
    (loadChessTexture : String → σ → Nat × σ) (meshes : List (AiMesh α)) :
    ∀ (k : Nat) (v : StdVector (ChessPiece α)) (gl : σ) (pre mid : List (ChessPiece α)),
      v.elems = pre ++ mid → mid.map ChessPiece.copy = mid →
      (∀ mesh ∈ meshes, triangulated mesh) →
      ∃ v' pre', meshLoop loadChessTexture meshes k v gl =
          some (v', (piecesOfMeshes loadChessTexture meshes k gl).2) ∧
        v'.elems = pre' ++ (mid ++ (piecesOfMeshes loadChessTexture meshes k gl).1) ∧
        pre'.map ChessPiece.copy = pre.map ChessPiece.copy := by
  induction meshes with
  | nil =>
    intro k v gl pre mid hv _ _
    exact ⟨v, pre, rfl, by simpa [piecesOfMeshes] using hv, rfl⟩
  | cons mesh rest ih =>
    intro k v gl pre mid hv hmid htri
    have hmesh : triangulated mesh := htri mesh (List.mem_cons_self _ _)
    have hrest : ∀ m ∈ rest, triangulated m := fun m hm => htri m (List.mem_cons_of_mem _ hm)
    obtain ⟨pre0, hpush, hpre0⟩ : ∃ pre0,
        (v.push_back ChessPiece.copy
          (pieceOfMesh mesh (textureStep loadChessTexture k gl).1)).elems =
          pre0 ++ (mid ++ [pieceOfMesh mesh (textureStep loadChessTexture k gl).1]) ∧
        pre0.map ChessPiece.copy = pre.map ChessPiece.copy := by
      rcases push_back_elems (pieceOfMesh mesh (textureStep loadChessTexture k gl).1) v
        with h | h
      · exact ⟨pre, by rw [h, hv, pieceOfMesh_copy, List.append_assoc], rfl⟩
      · refine ⟨pre.map ChessPiece.copy, ?_, ?_⟩
        · rw [h, hv, pieceOfMesh_copy, List.map_append, hmid, List.append_assoc]
        · simp [ChessPiece.copy_copy]
    obtain ⟨v', pre', hloop, helems, hpre'⟩ :=
      ih (k + 1) _ (textureStep loadChessTexture k gl).2 pre0
        (mid ++ [pieceOfMesh mesh (textureStep loadChessTexture k gl).1]) hpush
        (by simp [hmid, pieceOfMesh_copy]) hrest
    refine ⟨v', pre', ?_, ?_, hpre'.trans hpre0⟩
    · unfold meshLoop
      rw [buildPiece_eq, if_pos hmesh]
      simpa [piecesOfMeshes] using hloop
    · simpa [piecesOfMeshes] using helems

theorem meshLoop_none {α σ : Type} [Zero α] [One α]
    (loadChessTexture : String → σ → Nat × σ) (meshes : List (AiMesh α)) :
    ∀ (k : Nat) (v : StdVector (ChessPiece α)) (gl : σ),
      (¬ ∀ mesh ∈ meshes, triangulated mesh) →
      meshLoop loadChessTexture meshes k v gl = none := by
  induction meshes with
  | nil => intro k v gl h; simp at h
  | cons mesh rest ih =>
    intro k v gl h
    unfold meshLoop
    rw [buildPiece_eq]
    by_cases hmesh : triangulated mesh
    · rw [if_pos hmesh]
      simp only [Option.bind_eq_bind, Option.some_bind]
      apply ih
      intro hrest
      apply h
      intro m hm
      rcases List.mem_cons.mp hm with rfl | hm'
      · exact hmesh
      · exact hrest m hm'
    · rw [if_neg hmesh]
      rfl

theorem textureStateFrom_succ {σ : Type} (loadChessTexture : String → σ → Nat × σ)
    (first : Nat) (gl : σ) (n : Nat) :
    textureStateFrom loadChessTexture first gl (n + 1) =
      textureStateFrom loadChessTexture (first + 1) (textureStep loadChessTexture first gl).2 n := by
  induction n with
  | zero => simp [textureStateFrom]
  | succ n ih =>
    rw [textureStateFrom, ih, textureStateFrom]
    have e : first + (n + 1) = first + 1 + n := by omega
    rw [e]

theorem textureStateFrom_zero {σ : Type} (loadChessTexture : String → σ → Nat × σ)
    (gl : σ) (n : Nat) :
    textureStateFrom loadChessTexture 0 gl n = textureStateAt loadChessTexture gl n := by
  induction n with
  | zero => rfl
  | succ n ih => simp [textureStateFrom, textureStateAt, ih]

theorem piecesOfMeshes_length {α σ : Type} [Zero α] [One α]
    (loadChessTexture : String → σ → Nat × σ) (meshes : List (AiMesh α)) :
    ∀ (first : Nat) (gl : σ),
      (piecesOfMeshes loadChessTexture meshes first gl).1.length = meshes.length := by
  induction meshes with
  | nil => intro first gl; rfl
  | cons mesh rest ih => intro first gl; simp [piecesOfMeshes, ih]

theorem piecesOfMeshes_get {α σ : Type} [Zero α] [One α]
    (loadChessTexture : String → σ → Nat × σ) (meshes : List (AiMesh α)) :
    ∀ (first : Nat) (gl : σ) (k : Nat) (mesh : AiMesh α), meshes[k]? = some mesh →
      (piecesOfMeshes loadChessTexture meshes first gl).1[k]? =
        some (pieceOfMesh mesh
          (textureStep loadChessTexture (first + k)
            (textureStateFrom loadChessTexture first gl k)).1) := by
  induction meshes with
  | nil => intro first gl k mesh h; simp at h
  | cons m rest ih =>
    intro first gl k mesh h
    cases k with
    | zero =>
      simp only [List.getElem?_cons_zero, Option.some.injEq] at h
      subst h
      simp [piecesOfMeshes, textureStateFrom]
    | succ k =>
      simp only [List.getElem?_cons_succ] at h
      have := ih (first + 1) (textureStep loadChessTexture first gl).2 k mesh h
      simp only [piecesOfMeshes, List.getElem?_cons_succ, this, textureStateFrom_succ]
      have e : first + (k + 1) = first + 1 + k := by omega
      rw [e]

theorem piecesOfMeshes_state {α σ : Type} [Zero α] [One α]
    (loadChessTexture : String → σ → Nat × σ) (meshes : List (AiMesh α)) :
    ∀ (first : Nat) (gl : σ),
      (piecesOfMeshes loadChessTexture meshes first gl).2 =
        textureStateFrom loadChessTexture first gl meshes.length := by
  induction meshes with
  | nil => intro first gl; rfl
  | cons mesh rest ih =>
    intro first gl
    simp only [piecesOfMeshes, List.length_cons, textureStateFrom_succ, ih]

theorem loadAssImp_no_scene {α σ : Type} [Zero α] [One α]
    (ReadFile : String → Nat → Option (AiScene α))
    (loadChessTexture : String → σ → Nat × σ) (path : String)
    (v : StdVector (ChessPiece α)) (gl : σ) (hscene : ReadFile path importFlags = none) :
    loadAssImp ReadFile loadChessTexture path v gl = some (false, v, gl) := by
  unfold loadAssImp
  rw [hscene]

theorem loadAssImp_of_triangulated {α σ : Type} [Zero α] [One α]
    (ReadFile : String → Nat → Option (AiScene α))
    (loadChessTexture : String → σ → Nat × σ) (path : String)
    (v : StdVector (ChessPiece α)) (gl : σ) (scene : AiScene α)
    (hscene : ReadFile path importFlags = some scene)
    (htri : ∀ mesh ∈ scene.mMeshes, triangulated mesh) :
    ∃ v' pre, loadAssImp ReadFile loadChessTexture path v gl =
        some (true, v', textureStateAt loadChessTexture gl scene.mMeshes.length) ∧
      v'.elems = pre ++ (piecesOfMeshes loadChessTexture scene.mMeshes 0 gl).1 ∧
      pre.map ChessPiece.copy = v.elems.map ChessPiece.copy := by
  obtain ⟨pre0, hres, hpre0⟩ : ∃ pre0,
      (v.reserve ChessPiece.copy scene.mMeshes.length).elems = pre0 ++ [] ∧
      pre0.map ChessPiece.copy = v.elems.map ChessPiece.copy := by
    rcases reserve_elems scene.mMeshes.length v with h | h
    · exact ⟨v.elems, by simpa using h, rfl⟩
    · exact ⟨v.elems.map ChessPiece.copy, by simpa using h, by simp [ChessPiece.copy_copy]⟩
  obtain ⟨v', pre', hloop, helems, hpre'⟩ :=
    meshLoop_some loadChessTexture scene.mMeshes 0 _ gl pre0 [] hres rfl htri
  refine ⟨v', pre', ?_, by simpa using helems, hpre'.trans hpre0⟩
  unfold loadAssImp
  rw [hscene]
  simp only [hloop, Option.map_some', piecesOfMeshes_state, textureStateFrom_zero]

theorem loadAssImp_not_triangulated {α σ : Type} [Zero α] [One α]
    (ReadFile : String → Nat → Option (AiScene α))
    (loadChessTexture : String → σ → Nat × σ) (path : String)
    (v : StdVector (ChessPiece α)) (gl : σ) (scene : AiScene α)
    (hscene : ReadFile path importFlags = some scene)
    (htri : ¬ ∀ mesh ∈ scene.mMeshes, triangulated mesh) :
    loadAssImp ReadFile loadChessTexture path v gl = none := by
  unfold loadAssImp
  rw [hscene]
  simp only [meshLoop_none loadChessTexture scene.mMeshes 0 _ gl htri, Option.map_none']

/-- The piece stored for mesh number `k` by a run of `loadAssImp` that returns. -/
theorem loadAssImp_piece {α σ : Type} [Zero α] [One α]
    (ReadFile : String → Nat → Option (AiScene α))
    (loadChessTexture : String → σ → Nat × σ) (path : String)
    (v : StdVector (ChessPiece α)) (gl : σ) (scene : AiScene α)
    (hscene : ReadFile path importFlags = some scene)
    (b : Bool) (v' : StdVector (ChessPiece α)) (gl' : σ)
    (hret : loadAssImp ReadFile loadChessTexture path v gl = some (b, v', gl'))
    (k : Nat) (mesh : AiMesh α) (hk : scene.mMeshes[k]? = some mesh) :
    b = true ∧ triangulated mesh ∧
    v'.elems[v.elems.length + k]? =
      some (pieceOfMesh mesh
        (textureStep loadChessTexture k (textureStateAt loadChessTexture gl k)).1) := by
  by_cases htri : ∀ mesh ∈ scene.mMeshes, triangulated mesh
  · obtain ⟨w, pre, hw, helems, hpre⟩ :=
      loadAssImp_of_triangulated ReadFile loadChessTexture path v gl scene hscene htri
    rw [hw] at hret
    simp only [Option.some.injEq, Prod.mk.injEq] at hret
    obtain ⟨hb, hv, -⟩ := hret
    subst hv
    have hlen : pre.length = v.elems.length := by simpa using congrArg List.length hpre
    refine ⟨hb.symm, htri mesh (List.getElem?_mem hk), ?_⟩
    rw [helems, ← hlen, List.getElem?_append_right (by omega)]
    have := piecesOfMeshes_get loadChessTexture scene.mMeshes 0 gl k mesh hk
    simpa [textureStateFrom_zero] using this
  · rw [loadAssImp_not_triangulated ReadFile loadChessTexture path v gl scene hscene htri]
      at hret
    exact absurd hret (by simp)

/-- C3 (counterexample). The importer may return a scene whose mesh holds a line
segment, a face of two indices; `loadAssImp` then reads `face.mIndices[2]` outside
the face's array, so the run has no result: it does not return `true` with one
piece appended. -/
theorem loadAssImp_lineScene_undefined :
    lineScene.mMeshes.length = 1 ∧
    loadAssImp (fun _ _ => some lineScene) countingLoader "Chess/chess.obj"
      StdVector.empty 0 = none := by
  decide

/-- C3 (amended). For every scene the importer returns in which every face has at
least three indices, with `N` meshes, `loadAssImp` returns `true` and `chessPieces`
grows by exactly `N` pieces, in mesh order, after the pieces it held, which keep
the members a copy preserves.  Piece `k` has the positions of mesh `k` as vertices,
the `(x, y)` of its first texture-coordinate channel as uvs when the mesh has that
channel (as many as vertices) and none otherwise, its normals when the mesh has
normals (as many as vertices) and none otherwise, and the identity as model matrix. -/
theorem loadAssImp_appends_pieces {α σ : Type} [Zero α] [One α]
    (ReadFile : String → Nat → Option (AiScene α))
    (loadChessTexture : String → σ → Nat × σ) (path : String)
    (chessPieces : StdVector (ChessPiece α)) (gl : σ) (scene : AiScene α)
    (hscene : ReadFile path importFlags = some scene)
    (htri : ∀ mesh ∈ scene.mMeshes, ∀ face ∈ mesh.mFaces, 3 ≤ face.mIndices.length) :
    ∃ result gl', loadAssImp ReadFile loadChessTexture path chessPieces gl =
        some (true, result, gl') ∧
      result.elems.length = chessPieces.elems.length + scene.mMeshes.length ∧
      (∀ (j : Nat) (p : ChessPiece α), chessPieces.elems[j]? = some p →
        ∃ q, result.elems[j]? = some q ∧ q.copy = p.copy) ∧
      ∀ (k : Nat) (mesh : AiMesh α), scene.mMeshes[k]? = some mesh →
        ∃ piece, result.elems[chessPieces.elems.length + k]? = some piece ∧
          piece.vertices = mesh.mVertices ∧
          (∀ a, mesh.mTextureCoords0 = some a →
            piece.uvs = a.map (fun uv => ⟨uv.x, uv.y⟩) ∧
            piece.uvs.length = mesh.mNumVertices) ∧
          (mesh.mTextureCoords0 = none → piece.uvs = []) ∧
          (∀ a, mesh.mNormals = some a →
            piece.normals = a ∧ piece.normals.length = mesh.mNumVertices) ∧
          (mesh.mNormals = none → piece.normals = []) ∧
          piece.ModelMatrix = Mat4.identity := by
  obtain ⟨w, pre, hw, helems, hpre⟩ :=
    loadAssImp_of_triangulated ReadFile loadChessTexture path chessPieces gl scene hscene htri
  have hlen : pre.length = chessPieces.elems.length := by
    simpa using congrArg List.length hpre
  refine ⟨w, _, hw, ?_, ?_, ?_⟩
  · rw [helems, List.length_append, piecesOfMeshes_length, hlen]
  · intro j p hj
    have hjlt : j < pre.length := by rw [hlen]; exact (List.getElem?_eq_some.mp hj).1
    refine ⟨pre.get ⟨j, hjlt⟩, ?_, ?_⟩
    · rw [helems, List.getElem?_append_left hjlt, List.getElem?_eq_getElem hjlt]
      rfl
    · have h1 : (pre.map ChessPiece.copy)[j]? = (chessPieces.elems.map ChessPiece.copy)[j]? := by
        rw [hpre]
      simpa [List.getElem?_map, List.getElem?_eq_getElem hjlt, hj] using h1
  · intro k mesh hk
    obtain ⟨-, -, hpiece⟩ := loadAssImp_piece ReadFile loadChessTexture path chessPieces gl
      scene hscene true w _ hw k mesh hk
    refine ⟨_, hpiece, rfl, ?_, ?_, ?_, ?_, rfl⟩
    · intro a ha
      have hl := mesh.textureCoords_length a ha
      by_cases hpos : 0 < mesh.mVertices.length
      · simp [pieceOfMesh, meshUvs, AiMesh.HasTextureCoords0, AiMesh.mNumVertices, ha, hpos, hl]
      · have h0 : mesh.mVertices.length = 0 := by omega
        have ha0 : a = [] := List.length_eq_zero.mp (by omega)
        simp [pieceOfMesh, meshUvs, AiMesh.HasTextureCoords0, AiMesh.mNumVertices, ha, h0, ha0]
    · intro ha
      simp [pieceOfMesh, meshUvs, AiMesh.HasTextureCoords0, ha]
    · intro a ha
      have hl := mesh.normals_length a ha
      by_cases hpos : 0 < mesh.mVertices.length
      · simp [pieceOfMesh, meshNormals, AiMesh.HasNormals, AiMesh.mNumVertices, ha, hpos, hl]
      · have h0 : mesh.mVertices.length = 0 := by omega
        have ha0 : a = [] := List.length_eq_zero.mp (by omega)
        simp [pieceOfMesh, meshNormals, AiMesh.HasNormals, AiMesh.mNumVertices, ha, h0, ha0]
    · intro ha
      simp [pieceOfMesh, meshNormals, AiMesh.HasNormals, ha]

theorem loadAssImp_sampleScene :
    loadAssImp (fun _ _ => some sampleScene) countingLoader "Chess/chess.obj"
      StdVector.empty 0 = some (true, samplePieces, 2) := by
  decide

/-- Witness for C3: the sample scene of two triangle meshes. -/
theorem loadAssImp_appends_pieces_witness :
    (∀ mesh ∈ sampleScene.mMeshes, ∀ face ∈ mesh.mFaces, 3 ≤ face.mIndices.length) ∧
    loadAssImp (fun _ _ => some sampleScene) countingLoader "Chess/chess.obj"
      StdVector.empty 0 = some (true, samplePieces, 2) ∧
    ∃ result gl', loadAssImp (fun _ _ => some sampleScene) countingLoader "Chess/chess.obj"
        StdVector.empty 0 = some (true, result, gl') ∧
      result.elems.length = (StdVector.empty : StdVector (ChessPiece Int)).elems.length +
        sampleScene.mMeshes.length :=
  have h := loadAssImp_appends_pieces (fun _ _ => some sampleScene) countingLoader
    "Chess/chess.obj" StdVector.empty 0 sampleScene rfl (by decide)
  ⟨by decide, loadAssImp_sampleScene, h.imp fun _ h1 => h1.imp fun _ h2 => ⟨h2.1, h2.2.1⟩⟩

theorem meshIndices_lt {α : Type} (mesh : AiMesh α)
    (hfaces : ∀ face ∈ mesh.mFaces, ∀ index ∈ face.mIndices, index < mesh.mNumVertices) :
    ∀ index ∈ meshIndices mesh, index < mesh.mNumVertices := by
  intro index hmem
  unfold meshIndices at hmem
  simp only [List.mem_flatMap, List.mem_map] at hmem
  obtain ⟨face, hface, raw, hraw, rfl⟩ := hmem
  have := hfaces face hface raw (List.mem_of_mem_take hraw)
  exact lt_of_le_of_lt (Nat.mod_le _ _) this

/-- C4. Index-array validity: when `loadAssImp` returns, for every mesh in which each
face has at least three indices and every face index is below the mesh's vertex
count, every element of the indices array of the piece made from that mesh is below
the piece's `vertices.size()`; no bound on the vertex count is needed, the narrowing
to `unsigned short` can only lower an index. -/
theorem loadAssImp_indices_valid {α σ : Type} [Zero α] [One α]
    (ReadFile : String → Nat → Option (AiScene α))
    (loadChessTexture : String → σ → Nat × σ) (path : String)
    (chessPieces : StdVector (ChessPiece α)) (gl : σ) (scene : AiScene α)
    (hscene : ReadFile path importFlags = some scene)
    (b : Bool) (result : StdVector (ChessPiece α)) (gl' : σ)
    (hret : loadAssImp ReadFile loadChessTexture path chessPieces gl = some (b, result, gl'))
    (k : Nat) (mesh : AiMesh α) (hk : scene.mMeshes[k]? = some mesh)
    (hfaces : ∀ face ∈ mesh.mFaces,
      3 ≤ face.mIndices.length ∧ ∀ index ∈ face.mIndices, index < mesh.mNumVertices) :
    ∃ piece, result.elems[chessPieces.elems.length + k]? = some piece ∧
      piece.vertices.length = mesh.mNumVertices ∧
      ∀ index ∈ piece.indices, index < piece.vertices.length := by
  obtain ⟨-, -, hpiece⟩ := loadAssImp_piece ReadFile loadChessTexture path chessPieces gl
    scene hscene b result gl' hret k mesh hk
  refine ⟨_, hpiece, rfl, ?_⟩
  exact meshIndices_lt mesh (fun face hface => (hfaces face hface).2)

/-- Witness for C4: the first mesh of the sample scene. -/
theorem loadAssImp_indices_valid_witness :
    loadAssImp (fun _ _ => some sampleScene) countingLoader "Chess/chess.obj"
      StdVector.empty 0 = some (true, samplePieces, 2) ∧
    (∀ face ∈ triangleMesh.mFaces,
      3 ≤ face.mIndices.length ∧ ∀ index ∈ face.mIndices, index < triangleMesh.mNumVertices) ∧
    ∃ piece, samplePieces.elems[(StdVector.empty : StdVector (ChessPiece Int)).elems.length + 0]?
        = some piece ∧
      piece.vertices.length = triangleMesh.mNumVertices ∧
      ∀ index ∈ piece.indices, index < piece.vertices.length :=
  ⟨loadAssImp_sampleScene, by decide,
    loadAssImp_indices_valid (fun _ _ => some sampleScene) countingLoader "Chess/chess.obj"
      StdVector.empty 0 sampleScene rfl true samplePieces 2 loadAssImp_sampleScene 0
      triangleMesh rfl (by decide)⟩

theorem textureFiles_wood :
    ∀ k, k < 12 → ∃ file, textureFiles[k]? = some file ∧
      (k % 2 = 0 → isLightWood file = true) ∧ (k % 2 = 1 → isDarkWood file = true) := by
  decide

/-- C5. One piece owns one texture: the texture table of `loadAssImp` has exactly
twelve entries, entry `k` being a `woodlig` file for even `k` and a `wooddar` file
for odd `k`; when `loadAssImp` returns, the piece made from mesh `k` has as
`textureID` the result of `loadChessTexture` on entry `k` of the table (called in
the state the loader has reached after the meshes before it) when `k < 12`, and `0`
when `k ≥ 12`. -/
theorem loadAssImp_texture {α σ : Type} [Zero α] [One α]
    (ReadFile : String → Nat → Option (AiScene α))
    (loadChessTexture : String → σ → Nat × σ) (path : String)
    (chessPieces : StdVector (ChessPiece α)) (gl : σ) (scene : AiScene α)
    (hscene : ReadFile path importFlags = some scene)
    (b : Bool) (result : StdVector (ChessPiece α)) (gl' : σ)
    (hret : loadAssImp ReadFile loadChessTexture path chessPieces gl = some (b, result, gl'))
    (k : Nat) (mesh : AiMesh α) (hk : scene.mMeshes[k]? = some mesh) :
    textureFiles.length = 12 ∧
    (∀ i, i < 12 → ∃ file, textureFiles[i]? = some file ∧
      (i % 2 = 0 → isLightWood file = true) ∧ (i % 2 = 1 → isDarkWood file = true)) ∧
    ∃ piece, result.elems[chessPieces.elems.length + k]? = some piece ∧
      (k < 12 → ∃ file, textureFiles[k]? = some file ∧
        piece.textureID =
          some (loadChessTexture file (textureStateAt loadChessTexture gl k)).1) ∧
      (12 ≤ k → piece.textureID = some 0) := by
  obtain ⟨-, -, hpiece⟩ := loadAssImp_piece ReadFile loadChessTexture path chessPieces gl
    scene hscene b result gl' hret k mesh hk
  refine ⟨rfl, textureFiles_wood, _, hpiece, ?_, ?_⟩
  · intro hlt
    have hlt' : k < textureFiles.length := hlt
    refine ⟨textureFiles.get ⟨k, hlt'⟩, List.getElem?_eq_getElem hlt', ?_⟩
    simp only [pieceOfMesh, textureStep, List.getElem?_eq_getElem hlt']
    rfl
  · intro hge
    have hge' : textureFiles.length ≤ k := hge
    simp only [pieceOfMesh, textureStep, List.getElem?_eq_none hge']

/-- Witness for C5: the second mesh of the sample scene gets the second texture. -/
theorem loadAssImp_texture_witness :
    loadAssImp (fun _ _ => some sampleScene) countingLoader "Chess/chess.obj"
      StdVector.empty 0 = some (true, samplePieces, 2) ∧
    ∃ piece, samplePieces.elems[(StdVector.empty : StdVector (ChessPiece Int)).elems.length + 1]?
        = some piece ∧
      (1 < 12 → ∃ file, textureFiles[1]? = some file ∧
        piece.textureID = some (countingLoader file (textureStateAt countingLoader 0 1)).1) ∧
      (12 ≤ 1 → piece.textureID = some 0) :=
  ⟨loadAssImp_sampleScene,
    (loadAssImp_texture (fun _ _ => some sampleScene) countingLoader "Chess/chess.obj"
      StdVector.empty 0 sampleScene rfl true samplePieces 2 loadAssImp_sampleScene 1
      bareMesh rfl).2.2⟩

/-- C6. The function `loadAssImp` returns `false` if and only if the importer yields
no scene, and in that case `chessPieces` and the state of the texture loader are
exactly as on entry: no piece is appended and no texture is loaded. -/
theorem loadAssImp_false_iff {α σ : Type} [Zero α] [One α]
    (ReadFile : String → Nat → Option (AiScene α))
    (loadChessTexture : String → σ → Nat × σ) (path : String)
    (chessPieces : StdVector (ChessPiece α)) (gl : σ) :
    ((∃ result gl', loadAssImp ReadFile loadChessTexture path chessPieces gl =
        some (false, result, gl')) ↔ ReadFile path importFlags = none) ∧
    (ReadFile path importFlags = none →
      loadAssImp ReadFile loadChessTexture path chessPieces gl =
        some (false, chessPieces, gl)) := by
  refine ⟨⟨?_, ?_⟩, loadAssImp_no_scene ReadFile loadChessTexture path chessPieces gl⟩
  · rintro ⟨result, gl', h⟩
    cases hscene : ReadFile path importFlags with
    | none => rfl
    | some scene =>
      unfold loadAssImp at h
      rw [hscene] at h
      simp at h
  · intro hscene
    exact ⟨chessPieces, gl,
      loadAssImp_no_scene ReadFile loadChessTexture path chessPieces gl hscene⟩

/-- C10. Copying a chess piece copies its data: for every piece `p`, the copy
constructor and the assignment operator (onto any other object) produce a piece
whose vertices, uvs, normals, indices, textureID and ModelMatrix equal those of `p`,
and assigning a piece to itself leaves every member unchanged. -/
theorem ChessPiece.copy_assign_data {α : Type} (p this : ChessPiece α) :
    (p.copy.vertices = p.vertices ∧ p.copy.uvs = p.uvs ∧ p.copy.normals = p.normals ∧
      p.copy.indices = p.indices ∧ p.copy.textureID = p.textureID ∧
      p.copy.ModelMatrix = p.ModelMatrix) ∧
    ((this.assign p false).vertices = p.vertices ∧ (this.assign p false).uvs = p.uvs ∧
      (this.assign p false).normals = p.normals ∧ (this.assign p false).indices = p.indices ∧
      (this.assign p false).textureID = p.textureID ∧
      (this.assign p false).ModelMatrix = p.ModelMatrix) ∧
    p.assign p true = p :=
  ⟨⟨rfl, rfl, rfl, rfl, rfl, rfl⟩, ⟨rfl, rfl, rfl, rfl, rfl, rfl⟩, rfl⟩

/-! ## Theorems: the frame loop -/

theorem placeWith_some {α : Type} [Add α] [Mul α] (i : Nat) (P V : Mat4 α)
    (fs : List (Mat4 α → Mat4 α)) :
    ∀ (s : DrawState α) (p : ChessPiece α), s.chessPieces[i]? = some p →
      ∃ s', placeWith i P V fs s = some s' ∧
        s'.chessPieces.length = s.chessPieces.length ∧
        placements s'.calls =
          placements s.calls ++ [(i, fs.foldl (fun m f => f m) p.ModelMatrix)] := by
  induction fs with
  | nil =>
    intro s p hp
    refine ⟨{ s with calls := s.calls ++ [(i, p.render P V)] }, ?_, rfl, ?_⟩
    · simp [placeWith, DrawState.render, hp]
    · simp [placements, ChessPiece.render]
  | cons f fs ih =>
    intro s p hp
    have hi : i < s.chessPieces.length := (List.getElem?_eq_some.mp hp).1
    obtain ⟨s', h1, h2, h3⟩ := ih
      { s with chessPieces := s.chessPieces.set i { p with ModelMatrix := f p.ModelMatrix } }
      { p with ModelMatrix := f p.ModelMatrix } (by simp [List.getElem?_set, hi])
    refine ⟨s', ?_, by simpa using h2, by simpa using h3⟩
    simp only [placeWith, DrawState.setModelMatrix, hp, Option.some_bind]
    exact h1

theorem placeWith_none {α : Type} [Add α] [Mul α] (i : Nat) (P V : Mat4 α)
    (fs : List (Mat4 α → Mat4 α)) (s : DrawState α) (h : s.chessPieces.length ≤ i) :
    placeWith i P V fs s = none := by
  have hn : s.chessPieces[i]? = none := List.getElem?_eq_none h
  cases fs with
  | nil => simp [placeWith, DrawState.render, hn]
  | cons f fs => simp [placeWith, DrawState.setModelMatrix, hn]

theorem foldlM_place {α : Type} [Add α] [Mul α] (i : Nat) (P V : Mat4 α)
    (body : Int → DrawState α → Option (DrawState α)) (m0 : Mat4 α)
    (fs : Int → List (Mat4 α → Mat4 α))
    (hbody : ∀ k, body k = placeWith i P V ((fun _ => m0) :: fs k)) (ks : List Nat) :
    ∀ s : DrawState α, i < s.chessPieces.length →
      ∃ s', ks.foldlM (fun (s : DrawState α) (k : Nat) => body (k : Int) s) s = some s' ∧
        s'.chessPieces.length = s.chessPieces.length ∧
        placements s'.calls = placements s.calls ++
          ks.map (fun k => (i, (fs (k : Int)).foldl (fun m f => f m) m0)) := by
  induction ks with
  | nil => intro s _; exact ⟨s, rfl, rfl, by simp⟩
  | cons k ks ih =>
    intro s hi
    obtain ⟨p, hp⟩ : ∃ p, s.chessPieces[i]? = some p := ⟨_, List.getElem?_eq_getElem hi⟩
    obtain ⟨s1, h1, l1, c1⟩ := placeWith_some i P V ((fun _ => m0) :: fs (k : Int)) s p hp
    obtain ⟨s2, h2, l2, c2⟩ := ih s1 (by rw [l1]; exact hi)
    refine ⟨s2, ?_, by rw [l2, l1], ?_⟩
    · simp only [List.foldlM_cons, hbody, h1, Option.bind_eq_bind, Option.some_bind]
      simpa only [hbody] using h2
    · rw [c2, c1]
      simp

theorem forLoop_place {α : Type} [Add α] [Mul α] (i : Nat) (P V : Mat4 α)
    (body : Int → DrawState α → Option (DrawState α)) (m0 : Mat4 α)
    (fs : Int → List (Mat4 α → Mat4 α))
    (hbody : ∀ k, body k = placeWith i P V ((fun _ => m0) :: fs k)) (n : Nat)
    (s : DrawState α) (hi : i < s.chessPieces.length) :
    ∃ s', forLoop n body s = some s' ∧
      s'.chessPieces.length = s.chessPieces.length ∧
      placements s'.calls = placements s.calls ++
        (List.range n).map (fun k => (i, (fs (k : Int)).foldl (fun m f => f m) m0)) :=
  foldlM_place i P V body m0 fs hbody (List.range n) s hi

theorem forLoop_none {α : Type} [Add α] [Mul α] (i : Nat) (P V : Mat4 α)
    (body : Int → DrawState α → Option (DrawState α))
    (fs : Int → List (Mat4 α → Mat4 α))
    (hbody : ∀ k, body k = placeWith i P V (fs k)) (n : Nat)
    (s : DrawState α) (hi : s.chessPieces.length ≤ i) :
    forLoop (n + 1) body s = none := by
  unfold forLoop
  rw [List.range_succ_eq_map]
  simp only [List.foldlM_cons, hbody, placeWith_none i P V _ s hi, Option.bind_eq_bind,
    Option.none_bind]

theorem whitePawn_eq {α : Type} [Add α] [Mul α] [Neg α] [Zero α] [One α]
    [OfScientific α] [IntCast α]
    (P V : Mat4 α) (spacing : α) (col : Int) :
    whitePawn P V spacing col =
      placeWith 5 P V [fun _ => Mat4.identity,
        fun m => translate m ⟨((col - 1 : Int) : α) * spacing, 0.0, 30.0⟩,
        fun m => translate m ⟨-27.3, 0.0, 0.0⟩] := by
  funext s
  rfl

theorem whiteKnight_eq {α : Type} [Add α] [Mul α] [Zero α] [One α] [OfScientific α]
    [IntCast α] [NatCast α]
    (P V : Mat4 α) (spacing : α) (i : Int) :
    whiteKnight P V spacing i =
      placeWith 3 P V [fun _ => Mat4.identity,
        fun m => translate m ⟨((i - 1 : Int) : α) * spacing * 5, 0.0, 25.0⟩,
        fun m => translate m ⟨22.0, 0.0, 0.0⟩] := by
  funext s
  rfl

theorem whiteBishop_eq {α : Type} [Add α] [Mul α] [Zero α] [One α] [OfScientific α]
    [IntCast α] [NatCast α]
    (P V : Mat4 α) (spacing : α) (i : Int) :
    whiteBishop P V spacing i =
      placeWith 1 P V [fun _ => Mat4.identity,
        fun m => translate m ⟨((i - 1 : Int) : α) * spacing * 3, 0.0, 25.0⟩,
        fun m => translate m ⟨11.5, 0.0, 0.0⟩] := by
  funext s
  rfl

theorem whiteRook_eq {α : Type} [Add α] [Mul α] [Zero α] [One α] [OfScientific α]
    [IntCast α] [NatCast α]
    (P V : Mat4 α) (spacing : α) (i : Int) :
    whiteRook P V spacing i =
      placeWith 11 P V [fun _ => Mat4.identity,
        fun m => translate m ⟨((i - 1 : Int) : α) * spacing * 7, 0.0, 25.0⟩,
        fun m => translate m ⟨34.0, 0.0, 0.0⟩] := by
  funext s
  rfl

theorem whiteKing_eq {α : Type} [Add α] [Mul α] [Zero α] [One α] [OfScientific α]
    (P V : Mat4 α) :
    whiteKing P V =
      placeWith 9 P V [fun _ => Mat4.identity,
        fun m => translate m (⟨0.0, 0.0, 25.0⟩ : Vec3 α)] := by
  funext s
  rfl

theorem whiteQueen_eq {α : Type} [Add α] [Mul α] [Neg α] [Zero α] [One α]
    [OfScientific α]
    (P V : Mat4 α) :
    whiteQueen P V =
      placeWith 7 P V [fun _ => Mat4.identity,
        fun m => translate m (⟨0.0, 0.0, 25.0⟩ : Vec3 α),
        fun m => translate m ⟨-11.0, 0.0, 0.0⟩] := by
  funext s
  rfl

theorem blackPawn_eq {α : Type} [Add α] [Mul α] [Neg α] [Zero α] [One α]
    [OfScientific α] [IntCast α]
    (P V : Mat4 α) (spacing currentX : α) (col : Int) :
    blackPawn P V spacing currentX col =
      placeWith 4 P V [fun _ => Mat4.identity,
        fun m => translate m ⟨currentX + ((col - 1 : Int) : α) * spacing, 0.0, 45.0⟩,
        fun m => translate m ⟨-32.0, 0.0, 0.0⟩] := by
  funext s
  rfl

theorem blackKnight_eq {α : Type} [Add α] [Mul α] [Neg α] [Zero α] [One α]
    [OfScientific α] [IntCast α] [NatCast α]
    (E : Externals α) (P V : Mat4 α) (spacing : α)
    (i : Int) :
    blackKnight E P V spacing i =
      placeWith 2 P V [fun _ => Mat4.identity,
        fun m => translate m ⟨((i - 1 : Int) : α) * spacing * 5, 0.0, 0.0⟩,
        fun m => translate m ⟨5.3, 0.0, 0.0⟩,
        fun m => translate m ⟨0.0, 0.0, -12.0⟩,
        fun m => E.rotate m (E.radians 180.0) ⟨0.0, 1.0, 0.0⟩] := by
  funext s
  rfl

theorem blackBishop_eq {α : Type} [Add α] [Mul α] [Neg α] [Zero α] [One α]
    [OfScientific α] [IntCast α] [NatCast α]
    (E : Externals α) (P V : Mat4 α) (spacing : α)
    (i : Int) :
    blackBishop E P V spacing i =
      placeWith 0 P V [fun _ => Mat4.identity,
        fun m => translate m ⟨((i - 1 : Int) : α) * spacing * 3, 0.0, 0.0⟩,
        fun m => translate m ⟨5.3, 0.0, 0.0⟩,
        fun m => translate m ⟨0.0, 0.0, -12.0⟩,
        fun m => E.rotate m (E.radians 180.0) ⟨0.0, 1.0, 0.0⟩] := by
  funext s
  rfl

theorem blackRook_eq {α : Type} [Add α] [Mul α] [Neg α] [Zero α] [One α]
    [OfScientific α] [IntCast α] [NatCast α]
    (E : Externals α) (P V : Mat4 α) (spacing : α)
    (i : Int) :
    blackRook E P V spacing i =
      placeWith 10 P V [fun _ => Mat4.identity,
        fun m => translate m ⟨((i - 1 : Int) : α) * spacing * 7, 0.0, 0.0⟩,
        fun m => translate m ⟨5.3, 0.0, 0.0⟩,
        fun m => translate m ⟨0.0, 0.0, -12.0⟩,
        fun m => E.rotate m (E.radians 180.0) ⟨0.0, 1.0, 0.0⟩] := by
  funext s
  rfl

theorem blackKing_eq {α : Type} [Add α] [Mul α] [Neg α] [Zero α] [One α]
    [OfScientific α]
    (E : Externals α) (P V : Mat4 α) :
    blackKing E P V =
      placeWith 8 P V [fun _ => Mat4.identity,
        fun m => translate m ⟨5.3, 0.0, 0.0⟩,
        fun m => translate m ⟨0.0, 0.0, -12.0⟩,
        fun m => E.rotate m (E.radians 180.0) ⟨0.0, 1.0, 0.0⟩] := by
  funext s
  rfl

theorem blackQueen_eq {α : Type} [Add α] [Mul α] [Neg α] [Zero α] [One α]
    [OfScientific α]
    (E : Externals α) (P V : Mat4 α) :
    blackQueen E P V =
      placeWith 6 P V [fun _ => Mat4.identity,
        fun m => translate m ⟨5.3, 0.0, 0.0⟩,
        fun m => translate m ⟨0.0, 0.0, -12.0⟩,
        fun m => E.rotate m (E.radians 180.0) ⟨0.0, 1.0, 0.0⟩] := by
  funext s
  rfl

theorem block_place {α : Type} [Add α] [Mul α] (i : Nat) (P V : Mat4 α)
    (block : DrawState α → Option (DrawState α)) (m0 : Mat4 α)
    (fs : List (Mat4 α → Mat4 α))
    (hblock : block = placeWith i P V ((fun _ => m0) :: fs))
    (s : DrawState α) (hi : i < s.chessPieces.length) :
    ∃ s', block s = some s' ∧
      s'.chessPieces.length = s.chessPieces.length ∧
      placements s'.calls = placements s.calls ++ [(i, fs.foldl (fun m f => f m) m0)] := by
  obtain ⟨p, hp⟩ : ∃ p, s.chessPieces[i]? = some p := ⟨_, List.getElem?_eq_getElem hi⟩
  rw [hblock]
  exact placeWith_some i P V ((fun _ => m0) :: fs) s p hp

theorem drawPieces_some {α : Type} [Add α] [Mul α] [Neg α] [Zero α] [One α]
    [OfScientific α] [IntCast α] [NatCast α]
    (E : Externals α) (P V : Mat4 α)
    (chessPieces : List (ChessPiece α)) (h : 12 ≤ chessPieces.length) :
    ∃ s, drawPieces E P V chessPieces = some s ∧
      s.chessPieces.length = chessPieces.length ∧
      placements s.calls = staticScene E := by
  obtain ⟨s1, h1, l1, c1⟩ := forLoop_place 5 P V (whitePawn P V 5.5) Mat4.identity _
    (fun k => whitePawn_eq P V 5.5 k) 8
    ⟨chessPieces.map (fun piece => { piece with ModelMatrix := Mat4.identity }), []⟩
    (by simp only [List.length_map]; omega)
  simp only [List.length_map] at l1
  obtain ⟨s2, h2, l2, c2⟩ := forLoop_place 3 P V (whiteKnight P V 5.5) Mat4.identity _
    (fun k => whiteKnight_eq P V 5.5 k) 2 s1 (by omega)
  obtain ⟨s3, h3, l3, c3⟩ := forLoop_place 1 P V (whiteBishop P V 5.5) Mat4.identity _
    (fun k => whiteBishop_eq P V 5.5 k) 2 s2 (by omega)
  obtain ⟨s4, h4, l4, c4⟩ := forLoop_place 11 P V (whiteRook P V 5.5) Mat4.identity _
    (fun k => whiteRook_eq P V 5.5 k) 2 s3 (by omega)
  obtain ⟨s5, h5, l5, c5⟩ := block_place 9 P V (whiteKing P V) Mat4.identity _
    (whiteKing_eq P V) s4 (by omega)
  obtain ⟨s6, h6, l6, c6⟩ := block_place 7 P V (whiteQueen P V) Mat4.identity _
    (whiteQueen_eq P V) s5 (by omega)
  obtain ⟨s7, h7, l7, c7⟩ := forLoop_place 4 P V (blackPawn P V 5.5 5.0) Mat4.identity _
    (fun k => blackPawn_eq P V 5.5 5.0 k) 8 s6 (by omega)
  obtain ⟨s8, h8, l8, c8⟩ := forLoop_place 2 P V (blackKnight E P V 5.5) Mat4.identity _
    (fun k => blackKnight_eq E P V 5.5 k) 2 s7 (by omega)
  obtain ⟨s9, h9, l9, c9⟩ := forLoop_place 0 P V (blackBishop E P V 5.5) Mat4.identity _
    (fun k => blackBishop_eq E P V 5.5 k) 2 s8 (by omega)
  obtain ⟨s10, h10, l10, c10⟩ := forLoop_place 10 P V (blackRook E P V 5.5) Mat4.identity _
    (fun k => blackRook_eq E P V 5.5 k) 2 s9 (by omega)
  obtain ⟨s11, h11, l11, c11⟩ := block_place 8 P V (blackKing E P V) Mat4.identity _
    (blackKing_eq E P V) s10 (by omega)
  obtain ⟨s12, h12, l12, c12⟩ := block_place 6 P V (blackQueen E P V) Mat4.identity _
    (blackQueen_eq E P V) s11 (by omega)
  refine ⟨s12, ?_, by omega, ?_⟩
  · simp only [drawPieces, h1, h2, h3, h4, h5, h6, h7, h8, h9, h10, h11, h12,
      Option.bind_eq_bind, Option.some_bind]
  · rw [c12, c11, c10, c9, c8, c7, c6, c5, c4, c3, c2, c1]
    simp only [staticScene, List.foldl, placements, List.map_nil, List.nil_append,
      List.append_assoc, List.cons_append, List.singleton_append]

theorem drawPieces_none {α : Type} [Field α] (E : Externals α) (P V : Mat4 α)
    (chessPieces : List (ChessPiece α)) (h : chessPieces.length < 12) :
    drawPieces E P V chessPieces = none := by
  by_cases h5 : chessPieces.length ≤ 5
  · have := forLoop_none 5 P V (whitePawn P V 5.5) _ (fun k => whitePawn_eq P V 5.5 k) 7
      ⟨chessPieces.map (fun piece => { piece with ModelMatrix := Mat4.identity }), []⟩
      (by simp only [List.length_map]; omega)
    simp only [drawPieces, this, Option.bind_eq_bind, Option.none_bind]
  · obtain ⟨s1, h1, l1, -⟩ := forLoop_place 5 P V (whitePawn P V 5.5) Mat4.identity _
      (fun k => whitePawn_eq P V 5.5 k) 8
      ⟨chessPieces.map (fun piece => { piece with ModelMatrix := Mat4.identity }), []⟩
      (by simp only [List.length_map]; omega)
    simp only [List.length_map] at l1
    obtain ⟨s2, h2, l2, -⟩ := forLoop_place 3 P V (whiteKnight P V 5.5) Mat4.identity _
      (fun k => whiteKnight_eq P V 5.5 k) 2 s1 (by omega)
    obtain ⟨s3, h3, l3, -⟩ := forLoop_place 1 P V (whiteBishop P V 5.5) Mat4.identity _
      (fun k => whiteBishop_eq P V 5.5 k) 2 s2 (by omega)
    have h4 := forLoop_none 11 P V (whiteRook P V 5.5) _ (fun k => whiteRook_eq P V 5.5 k) 1
      s3 (by omega)
    simp only [drawPieces, h1, h2, h3, h4, Option.bind_eq_bind, Option.some_bind,
      Option.none_bind]

theorem frame_some {α : Type} [LinearOrderedField α] (E : Externals α) (inp : FrameInput α)
    (c : Controls α) (chessPieces : StdVector (ChessPiece α))
    (h : 12 ≤ chessPieces.elems.length) :
    ∃ trace result, frame E inp c chessPieces =
        some (trace, computeMatricesFromInputs E inp c, result) ∧
      result.elems.length = chessPieces.elems.length ∧
      placements trace.pieceCalls = staticScene E := by
  obtain ⟨s, hs, hl, hc⟩ := drawPieces_some E (computeMatricesFromInputs E inp c).ProjectionMatrix
    (computeMatricesFromInputs E inp c).ViewMatrix chessPieces.elems h
  simp only [frame, hs, Option.bind_eq_bind, Option.some_bind, Option.pure_def]
  exact ⟨_, _, rfl, hl, hc⟩

theorem frame_none {α : Type} [LinearOrderedField α] (E : Externals α) (inp : FrameInput α)
    (c : Controls α) (chessPieces : StdVector (ChessPiece α))
    (h : chessPieces.elems.length < 12) :
    frame E inp c chessPieces = none := by
  simp only [frame, drawPieces_none E _ _ chessPieces.elems h, Option.bind_eq_bind,
    Option.none_bind]

theorem staticScene_indices {α : Type} [Field α] (E : Externals α) :
    (staticScene E).map Prod.fst =
      [5, 5, 5, 5, 5, 5, 5, 5, 3, 3, 1, 1, 11, 11, 9, 7,
       4, 4, 4, 4, 4, 4, 4, 4, 2, 2, 0, 0, 10, 10, 8, 6] := by
  rfl

theorem renderedIndices_eq {α : Type} (calls : List (Nat × DrawElements α)) :
    renderedIndices calls = (placements calls).map Prod.fst := by
  simp [renderedIndices, placements]

/-- C8. In every frame, given at least twelve loaded pieces, the draw code makes
exactly 32 piece render calls: pieces 4 and 5 are rendered 8 times each, pieces 0,
1, 2, 3, 10 and 11 twice each, pieces 6, 7, 8 and 9 once each; the indices used are
exactly those below 12, and the frame runs without reading outside the vector. -/
theorem frame_render_calls {α : Type} [LinearOrderedField α] (E : Externals α)
    (inp : FrameInput α) (c : Controls α) (chessPieces : StdVector (ChessPiece α))
    (h : 12 ≤ chessPieces.elems.length) :
    ∃ trace c' result, frame E inp c chessPieces = some (trace, c', result) ∧
      (renderedIndices trace.pieceCalls).length = 32 ∧
      (renderedIndices trace.pieceCalls).count 4 = 8 ∧
      (renderedIndices trace.pieceCalls).count 5 = 8 ∧
      (renderedIndices trace.pieceCalls).count 0 = 2 ∧
      (renderedIndices trace.pieceCalls).count 1 = 2 ∧
      (renderedIndices trace.pieceCalls).count 2 = 2 ∧
      (renderedIndices trace.pieceCalls).count 3 = 2 ∧
      (renderedIndices trace.pieceCalls).count 10 = 2 ∧
      (renderedIndices trace.pieceCalls).count 11 = 2 ∧
      (renderedIndices trace.pieceCalls).count 6 = 1 ∧
      (renderedIndices trace.pieceCalls).count 7 = 1 ∧
      (renderedIndices trace.pieceCalls).count 8 = 1 ∧
      (renderedIndices trace.pieceCalls).count 9 = 1 ∧
      ∀ i, i ∈ renderedIndices trace.pieceCalls ↔ i < 12 := by
  obtain ⟨trace, result, hf, -, hp⟩ := frame_some E inp c chessPieces h
  refine ⟨trace, _, result, hf, ?_⟩
  rw [renderedIndices_eq, hp, staticScene_indices]
  refine ⟨rfl, rfl, rfl, rfl, rfl, rfl, rfl, rfl, rfl, rfl, rfl, rfl, rfl, ?_⟩
  intro i
  constructor
  · intro hi
    simp only [List.mem_cons, List.mem_singleton, List.not_mem_nil, or_false] at hi
    omega
  · intro hi
    have : i = 0 ∨ i = 1 ∨ i = 2 ∨ i = 3 ∨ i = 4 ∨ i = 5 ∨ i = 6 ∨ i = 7 ∨ i = 8 ∨ i = 9 ∨
        i = 10 ∨ i = 11 := by omega
    rcases this with h | h | h | h | h | h | h | h | h | h | h | h <;> subst h <;> decide

/-- Witness for C8: twelve default pieces and an idle frame. -/
theorem frame_render_calls_witness :
    12 ≤ twelvePieces.elems.length ∧
    ∃ trace c' result,
      frame rationalExternals idleInput Controls.initial twelvePieces =
        some (trace, c', result) ∧
      (renderedIndices trace.pieceCalls).length = 32 :=
  have h := frame_render_calls rationalExternals idleInput Controls.initial twelvePieces
    (by decide)
  ⟨by decide, h.imp fun _ h1 => h1.imp fun _ h2 => h2.imp fun _ h3 => ⟨h3.1, h3.2.1⟩⟩

theorem runFrames_static {α : Type} [LinearOrderedField α] (E : Externals α)
    (inputs : List (FrameInput α)) :
    ∀ (c : Controls α) (chessPieces : StdVector (ChessPiece α)),
      12 ≤ chessPieces.elems.length →
      ∃ traces c' result, runFrames E inputs c chessPieces = some (traces, c', result) ∧
        traces.length = inputs.length ∧
        result.elems.length = chessPieces.elems.length ∧
        ∀ trace ∈ traces, placements trace.pieceCalls = staticScene E := by
  induction inputs with
  | nil => intro c chessPieces _; exact ⟨[], c, chessPieces, rfl, rfl, rfl, by simp⟩
  | cons inp rest ih =>
    intro c chessPieces h
    obtain ⟨trace, result, hf, hl, hp⟩ := frame_some E inp c chessPieces h
    obtain ⟨traces, c', result', hr, hlen, hl', hall⟩ :=
      ih (computeMatricesFromInputs E inp c) result (by omega)
    refine ⟨trace :: traces, c', result', ?_, by simp [hlen], by omega, ?_⟩
    · simp only [runFrames, hf, hr, Option.bind_eq_bind, Option.some_bind, Option.pure_def]
    · intro t ht
      rcases List.mem_cons.mp ht with rfl | ht'
      · exact hp
      · exact hall t ht'

/-- C9. The scene is static: the sequence of (piece index, model matrix) pairs
rendered by a pass of the frame loop is the fixed list `staticScene`, whatever the
inputs (keys, cursor, time), the state of the controls (camera, light switch) and the
model matrices the pieces hold on entry; it is defined exactly when there are at
least twelve pieces.  Hence every frame of a run renders that same sequence. -/
theorem scene_is_static {α : Type} [LinearOrderedField α] (E : Externals α)
    (inputs : List (FrameInput α)) (inp : FrameInput α) (c : Controls α)
    (chessPieces : StdVector (ChessPiece α)) :
    ((frame E inp c chessPieces).map (fun r => placements r.1.pieceCalls) =
      if 12 ≤ chessPieces.elems.length then some (staticScene E) else none) ∧
    (12 ≤ chessPieces.elems.length →
      ∃ traces c' result, runFrames E inputs c chessPieces = some (traces, c', result) ∧
        traces.length = inputs.length ∧
        result.elems.length = chessPieces.elems.length ∧
        ∀ trace ∈ traces, placements trace.pieceCalls = staticScene E) := by
  refine ⟨?_, runFrames_static E inputs c chessPieces⟩
  by_cases h : 12 ≤ chessPieces.elems.length
  · obtain ⟨trace, result, hf, -, hp⟩ := frame_some E inp c chessPieces h
    rw [if_pos h, hf]
    simp only [Option.map_some', hp]
  · rw [if_neg h, frame_none E inp c chessPieces (by omega)]
    rfl

/-- Witness for C9: two frames with different inputs on twelve default pieces. -/
theorem scene_is_static_witness :
    12 ≤ twelvePieces.elems.length ∧
    ∃ traces c' result,
      runFrames rationalExternals [idleInput, busyInput] Controls.initial twelvePieces =
        some (traces, c', result) ∧
      traces.length = [idleInput, (busyInput : FrameInput ℚ)].length ∧
      result.elems.length = twelvePieces.elems.length ∧
      ∀ trace ∈ traces, placements trace.pieceCalls = staticScene rationalExternals :=
  ⟨by decide, (scene_is_static rationalExternals [idleInput, busyInput] idleInput
    Controls.initial twelvePieces).2 (by decide)⟩

/-! ## Theorems: the camera -/

theorem sphere_norm (r cv sv ch sh : ℝ) (hv : sv ^ 2 + cv ^ 2 = 1) (hh : sh ^ 2 + ch ^ 2 = 1) :
    Real.sqrt ((r * (cv * sh)) ^ 2 + (r * sv) ^ 2 + (r * (cv * ch)) ^ 2) = |r| := by
  have e : (r * (cv * sh)) ^ 2 + (r * sv) ^ 2 + (r * (cv * ch)) ^ 2 =
      r ^ 2 * (cv ^ 2 * (sh ^ 2 + ch ^ 2) + sv ^ 2) := by ring
  have e2 : r ^ 2 * (cv ^ 2 * 1 + sv ^ 2) = r ^ 2 := by
    have : cv ^ 2 * 1 + sv ^ 2 = 1 := by linarith
    rw [this, mul_one]
  rw [e, hh, e2, Real.sqrt_sq_eq_abs]

theorem handleKeyboardInput_idle {α : Type} [LinearOrderedField α] (inp : FrameInput α)
    (deltaTime : α) (c : Controls α)
    (hW : inp.keyW = false) (hS : inp.keyS = false) (hA : inp.keyA = false)
    (hD : inp.keyD = false) (hUp : inp.keyUp = false) (hDown : inp.keyDown = false) :
    (handleKeyboardInput inp deltaTime c).horizontalAngle = c.horizontalAngle ∧
    (handleKeyboardInput inp deltaTime c).verticalAngle = c.verticalAngle ∧
    (handleKeyboardInput inp deltaTime c).radialDistance = c.radialDistance := by
  cases hL : inp.keyL <;> cases hE : inp.keyEscape <;> cases hl : c.lastLState <;>
    simp [handleKeyboardInput, hW, hS, hA, hD, hUp, hDown, hL, hE, hl]

/-- C7. Spherical-to-Cartesian camera, over real arithmetic: in the state `c'` that
`computeMatricesFromInputs` leaves, with horizontal angle `h`, vertical angle `v` and
radial distance `r`, the camera position is `r * (cos v * sin h, sin v, cos v * cos h)`,
its Euclidean distance from the origin is `|r|`, and the view matrix is `glm::lookAt`
from that position towards the origin `(0, 0, 0)`.  A frame with no key held and the
cursor at the centre of the window leaves `h`, `v` and `r` as they were, so this
holds of every `h`, `v` and `r`. -/
theorem computeMatricesFromInputs_camera (E : Externals ℝ)
    (hcos : E.cos = Real.cos) (hsin : E.sin = Real.sin)
    (inp : FrameInput ℝ) (c c' : Controls ℝ)
    (hc' : c' = computeMatricesFromInputs E inp c) :
    c'.position =
      Vec3.smul c'.radialDistance
        ⟨Real.cos c'.verticalAngle * Real.sin c'.horizontalAngle,
          Real.sin c'.verticalAngle,
          Real.cos c'.verticalAngle * Real.cos c'.horizontalAngle⟩ ∧
    Real.sqrt (c'.position.x ^ 2 + c'.position.y ^ 2 + c'.position.z ^ 2) =
      |c'.radialDistance| ∧
    (∃ up, c'.ViewMatrix = E.lookAt c'.position ⟨0, 0, 0⟩ up) ∧
    (inp.keyW = false → inp.keyS = false → inp.keyA = false → inp.keyD = false →
      inp.keyUp = false → inp.keyDown = false → inp.xpos = 512 → inp.ypos = 384 →
      c'.horizontalAngle = c.horizontalAngle ∧ c'.verticalAngle = c.verticalAngle ∧
      c'.radialDistance = c.radialDistance) := by
  subst hc'
  have hpos : (computeMatricesFromInputs E inp c).position =
      Vec3.smul (computeMatricesFromInputs E inp c).radialDistance
        ⟨Real.cos (computeMatricesFromInputs E inp c).verticalAngle *
            Real.sin (computeMatricesFromInputs E inp c).horizontalAngle,
          Real.sin (computeMatricesFromInputs E inp c).verticalAngle,
          Real.cos (computeMatricesFromInputs E inp c).verticalAngle *
            Real.cos (computeMatricesFromInputs E inp c).horizontalAngle⟩ := by
    simp only [computeMatricesFromInputs, direction, hcos, hsin]
  refine ⟨hpos, ?_, ⟨_, rfl⟩, ?_⟩
  · rw [hpos]
    exact sphere_norm _ _ _ _ _ (Real.sin_sq_add_cos_sq _) (Real.sin_sq_add_cos_sq _)
  · intro hW hS hA hD hUp hDown hx hy
    have hcx : ((WINDOW_WIDTH / 2 : Int) : ℝ) = 512 := by norm_num [WINDOW_WIDTH]
    have hcy : ((WINDOW_HEIGHT / 2 : Int) : ℝ) = 384 := by norm_num [WINDOW_HEIGHT]
    obtain ⟨h1, h2, h3⟩ := handleKeyboardInput_idle inp
      (inp.currentTime - c.lastTime.getD inp.firstTime)
      { c with
        horizontalAngle :=
          c.horizontalAngle + MOUSE_SPEED * (((WINDOW_WIDTH / 2 : Int) : ℝ) - inp.xpos)
        verticalAngle :=
          c.verticalAngle + MOUSE_SPEED * (((WINDOW_HEIGHT / 2 : Int) : ℝ) - inp.ypos) }
      hW hS hA hD hUp hDown
    refine ⟨?_, ?_, ?_⟩
    · refine Eq.trans h1 ?_
      simp [hcx, hx]
    · refine Eq.trans h2 ?_
      simp [hcy, hy]
    · exact h3

/-- Witness for C7: an idle frame from the initial state of the controls. -/
theorem computeMatricesFromInputs_camera_witness :
    Real.sqrt
      ((computeMatricesFromInputs
          (⟨Real.cos, Real.sin, Real.pi, fun d => d * Real.pi / 180, fun m _ _ => m,
            fun _ _ _ _ => Mat4.identity, fun _ _ _ => Mat4.identity⟩ : Externals ℝ)
          idleInput Controls.initial).position.x ^ 2 +
        (computeMatricesFromInputs
          (⟨Real.cos, Real.sin, Real.pi, fun d => d * Real.pi / 180, fun m _ _ => m,
            fun _ _ _ _ => Mat4.identity, fun _ _ _ => Mat4.identity⟩ : Externals ℝ)
          idleInput Controls.initial).position.y ^ 2 +
        (computeMatricesFromInputs
          (⟨Real.cos, Real.sin, Real.pi, fun d => d * Real.pi / 180, fun m _ _ => m,
            fun _ _ _ _ => Mat4.identity, fun _ _ _ => Mat4.identity⟩ : Externals ℝ)
          idleInput Controls.initial).position.z ^ 2) =
      |(computeMatricesFromInputs
          (⟨Real.cos, Real.sin, Real.pi, fun d => d * Real.pi / 180, fun m _ _ => m,
            fun _ _ _ _ => Mat4.identity, fun _ _ _ => Mat4.identity⟩ : Externals ℝ)
          idleInput Controls.initial).radialDistance| :=
  (computeMatricesFromInputs_camera
    ⟨Real.cos, Real.sin, Real.pi, fun d => d * Real.pi / 180, fun m _ _ => m,
      fun _ _ _ _ => Mat4.identity, fun _ _ _ => Mat4.identity⟩
    rfl rfl idleInput Controls.initial _ rfl).2.1

/-! ## Theorems: camera speed and the light switch -/

theorem handleKeyboardInput_S {α : Type} [LinearOrderedField α] (inp : FrameInput α)
    (deltaTime : α) (c : Controls α)
    (hW : inp.keyW = false) (hS : inp.keyS = true) :
    (handleKeyboardInput inp deltaTime c).radialDistance =
      c.radialDistance + deltaTime * SPEED := by
  cases hA : inp.keyA <;> cases hD : inp.keyD <;> cases hUp : inp.keyUp <;>
    cases hDown : inp.keyDown <;> cases hL : inp.keyL <;> cases hE : inp.keyEscape <;>
    cases hl : c.lastLState <;>
    simp [handleKeyboardInput, hW, hS, hA, hD, hUp, hDown, hL, hE, hl]

/-- C11 (the code at the failing input). In a frame of one second in which `S` is the
only key held, `handleKeyboardInput` takes the radial distance from 5 to 11: it adds
`6 * dt`, the value of `SPEED`, and not the `3 * dt` of the comment on `SPEED`. -/
theorem handleKeyboardInput_S_one_second :
    (SPEED : ℚ) = 6 ∧
    (handleKeyboardInput sOnlyInput 1 (Controls.initial : Controls ℚ)).radialDistance = 11 ∧
    (Controls.initial : Controls ℚ).radialDistance + 3 * 1 = 8 := by
  refine ⟨by norm_num [SPEED], ?_, by norm_num [Controls.initial]⟩
  rw [handleKeyboardInput_S sOnlyInput 1 Controls.initial rfl rfl]
  norm_num [Controls.initial, SPEED]

theorem handleKeyboardInput_light {α : Type} [LinearOrderedField α] (inp : FrameInput α)
    (deltaTime : α) (c : Controls α) :
    (handleKeyboardInput inp deltaTime c).lightEnabled =
      (if inp.keyL && !c.lastLState then !c.lightEnabled else c.lightEnabled) ∧
    (handleKeyboardInput inp deltaTime c).lastLState = inp.keyL := by
  cases hL : inp.keyL <;> cases hE : inp.keyEscape <;> cases hl : c.lastLState <;>
    simp [handleKeyboardInput, hL, hE, hl, apply_ite Controls.lightEnabled,
      apply_ite Controls.lastLState]

theorem computeMatricesFromInputs_light {α : Type} [LinearOrderedField α] (E : Externals α)
    (inp : FrameInput α) (c : Controls α) :
    (computeMatricesFromInputs E inp c).lightEnabled =
      (if inp.keyL && !c.lastLState then !c.lightEnabled else c.lightEnabled) ∧
    (computeMatricesFromInputs E inp c).lastLState = inp.keyL :=
  handleKeyboardInput_light inp (inp.currentTime - c.lastTime.getD inp.firstTime)
    { c with
      horizontalAngle :=
        c.horizontalAngle + MOUSE_SPEED * (((WINDOW_WIDTH / 2 : Int) : α) - inp.xpos)
      verticalAngle :=
        c.verticalAngle + MOUSE_SPEED * (((WINDOW_HEIGHT / 2 : Int) : α) - inp.ypos) }

theorem flipped_flipped (switch : Bool) (k n : Nat) :
    flipped (flipped switch k) n = flipped switch (k + n) := by
  unfold flipped
  rcases Nat.mod_two_eq_zero_or_one k with hk | hk <;>
    rcases Nat.mod_two_eq_zero_or_one n with hn | hn <;>
    have hkn : (k + n) % 2 = (k % 2 + n % 2) % 2 := Nat.add_mod k n 2 <;>
    simp [hk, hn, hkn]

theorem runControls_light {α : Type} [LinearOrderedField α] (E : Externals α)
    (inputs : List (FrameInput α)) :
    ∀ c : Controls α, (runControls E inputs c).lightEnabled =
      flipped c.lightEnabled (risingEdges c.lastLState (inputs.map (fun inp => inp.keyL))) := by
  induction inputs with
  | nil => intro c; simp [runControls, risingEdges, flipped]
  | cons inp rest ih =>
    intro c
    obtain ⟨h1, h2⟩ := computeMatricesFromInputs_light E inp c
    simp only [runControls, List.map_cons, risingEdges, ih, h1, h2]
    by_cases hp : (inp.keyL && !c.lastLState) = true
    · rw [if_pos hp, if_pos hp, ← flipped_flipped]
      simp [flipped]
    · rw [if_neg hp, if_neg hp, Nat.zero_add]

theorem risingEdges_held (keys : List Bool) (h : ∀ key ∈ keys, key = true) :
    risingEdges true keys = 0 := by
  induction keys with
  | nil => rfl
  | cons key rest ih =>
    have hk : key = true := h key (List.mem_cons_self _ _)
    subst hk
    simp [risingEdges, ih (fun k hk => h k (List.mem_cons_of_mem _ hk))]

/-- C13. The light toggle is edge-triggered: starting with the light enabled and the
`L` key considered released, after any sequence of frames `lightEnabled` has been
flipped once for each frame in which `L` is pressed and was not pressed in the frame
before; in particular holding `L` down over any positive number of consecutive frames
flips the light exactly once, and a frame in which `L` is not pressed never changes
it. -/
theorem light_toggle_edge_triggered {α : Type} [LinearOrderedField α] (E : Externals α)
    (inputs : List (FrameInput α)) (c : Controls α)
    (hlight : c.lightEnabled = true) (hreleased : c.lastLState = false) :
    (runControls E inputs c).lightEnabled =
      flipped true (risingEdges false (inputs.map (fun inp => inp.keyL))) ∧
    (inputs ≠ [] → (∀ inp ∈ inputs, inp.keyL = true) →
      risingEdges false (inputs.map (fun inp => inp.keyL)) = 1 ∧
      (runControls E inputs c).lightEnabled = false) ∧
    (∀ (inp : FrameInput α) (c0 : Controls α), inp.keyL = false →
      (computeMatricesFromInputs E inp c0).lightEnabled = c0.lightEnabled) := by
  have hrun := runControls_light E inputs c
  rw [hlight, hreleased] at hrun
  refine ⟨hrun, ?_, ?_⟩
  · intro hne hheld
    cases inputs with
    | nil => exact absurd rfl hne
    | cons inp rest =>
      have hk : inp.keyL = true := hheld inp (List.mem_cons_self _ _)
      have hrest : ∀ key ∈ rest.map (fun inp => inp.keyL), key = true := by
        intro key hkey
        obtain ⟨i, hi, rfl⟩ := List.mem_map.mp hkey
        exact hheld i (List.mem_cons_of_mem _ hi)
      have hone : risingEdges false ((inp :: rest).map (fun inp => inp.keyL)) = 1 := by
        simp [risingEdges, hk, risingEdges_held _ hrest]
      refine ⟨hone, ?_⟩
      rw [hrun, hone]
      rfl
  · intro inp c0 hL
    rw [(computeMatricesFromInputs_light E inp c0).1, hL]
    rfl

/-- Witness for C13: `L` held for two frames, released for one, pressed again. -/
theorem light_toggle_edge_triggered_witness :
    (Controls.initial : Controls ℚ).lightEnabled = true ∧
    (Controls.initial : Controls ℚ).lastLState = false ∧
    risingEdges false
      (([lOnlyInput, lOnlyInput, idleInput, lOnlyInput] : List (FrameInput ℚ)).map
        (fun inp => inp.keyL)) = 2 ∧
    (runControls rationalExternals [lOnlyInput, lOnlyInput, idleInput, lOnlyInput]
      Controls.initial).lightEnabled =
      flipped true (risingEdges false
        (([lOnlyInput, lOnlyInput, idleInput, lOnlyInput] : List (FrameInput ℚ)).map
          (fun inp => inp.keyL))) :=
  ⟨rfl, rfl, by decide,
    (light_toggle_edge_triggered rationalExternals
      [lOnlyInput, lOnlyInput, idleInput, lOnlyInput] Controls.initial rfl rfl).1⟩

/-! ## Theorems: the colours of the two halves -/

theorem drawPieces_split {α : Type} [Field α] (E : Externals α) (P V : Mat4 α)
    (chessPieces : List (ChessPiece α)) :
    drawPieces E P V chessPieces =
      (piecesBeforeBlack P V 5.5
        ⟨chessPieces.map (fun piece => { piece with ModelMatrix := Mat4.identity }), []⟩).bind
        (setupBlackPieces E P V 5.5) := by
  simp only [drawPieces, piecesBeforeBlack, setupBlackPieces, Option.bind_eq_bind,
    Option.bind_assoc]

theorem piecesBeforeBlack_some {α : Type} [Field α] (P V : Mat4 α) (spacing : α)
    (s : DrawState α) (h : 12 ≤ s.chessPieces.length) :
    ∃ s', piecesBeforeBlack P V spacing s = some s' ∧
      s'.chessPieces.length = s.chessPieces.length ∧
      renderedIndices s'.calls = renderedIndices s.calls ++ indicesBeforeBlack := by
  obtain ⟨s1, h1, l1, c1⟩ := forLoop_place 5 P V (whitePawn P V spacing) Mat4.identity _
    (fun k => whitePawn_eq P V spacing k) 8 s (by omega)
  obtain ⟨s2, h2, l2, c2⟩ := forLoop_place 3 P V (whiteKnight P V spacing) Mat4.identity _
    (fun k => whiteKnight_eq P V spacing k) 2 s1 (by omega)
  obtain ⟨s3, h3, l3, c3⟩ := forLoop_place 1 P V (whiteBishop P V spacing) Mat4.identity _
    (fun k => whiteBishop_eq P V spacing k) 2 s2 (by omega)
  obtain ⟨s4, h4, l4, c4⟩ := forLoop_place 11 P V (whiteRook P V spacing) Mat4.identity _
    (fun k => whiteRook_eq P V spacing k) 2 s3 (by omega)
  obtain ⟨s5, h5, l5, c5⟩ := block_place 9 P V (whiteKing P V) Mat4.identity _
    (whiteKing_eq P V) s4 (by omega)
  obtain ⟨s6, h6, l6, c6⟩ := block_place 7 P V (whiteQueen P V) Mat4.identity _
    (whiteQueen_eq P V) s5 (by omega)
  refine ⟨s6, ?_, by omega, ?_⟩
  · simp only [piecesBeforeBlack, h1, h2, h3, h4, h5, h6, Option.bind_eq_bind,
      Option.some_bind]
  · rw [renderedIndices_eq, renderedIndices_eq, c6, c5, c4, c3, c2, c1]
    simp only [List.map_append, List.map_map, List.append_assoc]
    rfl

theorem setupBlackPieces_some {α : Type} [Field α] (E : Externals α) (P V : Mat4 α)
    (spacing : α) (s : DrawState α) (h : 12 ≤ s.chessPieces.length) :
    ∃ s', setupBlackPieces E P V spacing s = some s' ∧
      s'.chessPieces.length = s.chessPieces.length ∧
      renderedIndices s'.calls = renderedIndices s.calls ++ indicesOfBlack := by
  obtain ⟨s1, h1, l1, c1⟩ := forLoop_place 4 P V (blackPawn P V spacing 5.0) Mat4.identity _
    (fun k => blackPawn_eq P V spacing 5.0 k) 8 s (by omega)
  obtain ⟨s2, h2, l2, c2⟩ := forLoop_place 2 P V (blackKnight E P V spacing) Mat4.identity _
    (fun k => blackKnight_eq E P V spacing k) 2 s1 (by omega)
  obtain ⟨s3, h3, l3, c3⟩ := forLoop_place 0 P V (blackBishop E P V spacing) Mat4.identity _
    (fun k => blackBishop_eq E P V spacing k) 2 s2 (by omega)
  obtain ⟨s4, h4, l4, c4⟩ := forLoop_place 10 P V (blackRook E P V spacing) Mat4.identity _
    (fun k => blackRook_eq E P V spacing k) 2 s3 (by omega)
  obtain ⟨s5, h5, l5, c5⟩ := block_place 8 P V (blackKing E P V) Mat4.identity _
    (blackKing_eq E P V) s4 (by omega)
  obtain ⟨s6, h6, l6, c6⟩ := block_place 6 P V (blackQueen E P V) Mat4.identity _
    (blackQueen_eq E P V) s5 (by omega)
  refine ⟨s6, ?_, by omega, ?_⟩
  · simp only [setupBlackPieces, h1, h2, h3, h4, h5, h6, Option.bind_eq_bind,
      Option.some_bind]
  · rw [renderedIndices_eq, renderedIndices_eq, c6, c5, c4, c3, c2, c1]
    simp only [List.map_append, List.map_map, List.append_assoc]
    rfl

/-- C12 (the code on twelve pieces). The frame's placement code is the blocks before
`// Setup black pieces` followed by the blocks after it; the first half renders the
pieces 5, 3, 1, 11, 9, 7 and the second half the pieces 4, 2, 0, 10, 8, 6.  In the
texture table of `loadAssImp` every entry numbered by the second half is a `woodlig`
file and not a `wooddar` file, and every entry numbered by the first half is a
`wooddar` file and not a `woodlig` file: the pieces drawn as black carry light wood. -/
theorem black_block_draws_light_wood :
    drawPieces rationalExternals Mat4.identity Mat4.identity twelvePieces.elems =
      (piecesBeforeBlack Mat4.identity Mat4.identity 5.5
        ⟨twelvePieces.elems.map (fun piece => { piece with ModelMatrix := Mat4.identity }),
          []⟩).bind (setupBlackPieces rationalExternals Mat4.identity Mat4.identity 5.5) ∧
    (∃ s1 s2,
      piecesBeforeBlack Mat4.identity Mat4.identity 5.5
        ⟨twelvePieces.elems.map (fun piece => { piece with ModelMatrix := Mat4.identity }),
          []⟩ = some s1 ∧
      renderedIndices s1.calls = indicesBeforeBlack ∧
      setupBlackPieces rationalExternals Mat4.identity Mat4.identity 5.5 s1 = some s2 ∧
      renderedIndices s2.calls = indicesBeforeBlack ++ indicesOfBlack) ∧
    (∀ k ∈ indicesOfBlack, ∃ file, textureFiles[k]? = some file ∧
      isLightWood file = true ∧ isDarkWood file = false) ∧
    (∀ k ∈ indicesBeforeBlack, ∃ file, textureFiles[k]? = some file ∧
      isDarkWood file = true ∧ isLightWood file = false) := by
  refine ⟨drawPieces_split _ _ _ _, ?_, by decide, by decide⟩
  obtain ⟨s1, h1, l1, c1⟩ := piecesBeforeBlack_some (Mat4.identity : Mat4 ℚ) Mat4.identity 5.5
    ⟨twelvePieces.elems.map (fun piece => { piece with ModelMatrix := Mat4.identity }), []⟩
    (by decide)
  obtain ⟨s2, h2, -, c2⟩ := setupBlackPieces_some rationalExternals Mat4.identity
    Mat4.identity 5.5 s1 (by rw [l1]; decide)
  refine ⟨s1, s2, h1, by simpa [renderedIndices] using c1, h2, ?_⟩
  rw [c2, c1]
  simp [renderedIndices]

/-! ## Theorems: the arithmetic of `float` -/

theorem Binary32.value_dyadic (m : Int) (e : Nat) (h : e ≤ 149) :
    (Binary32.dyadic m e).value = some ((m : ℚ) / 2 ^ e) := by
  have hu : (UNITS_PER_ONE : ℚ) = 2 ^ (149 - e) * 2 ^ e := by
    rw [← pow_add, Nat.sub_add_cancel h]
    norm_num [UNITS_PER_ONE]
  simp only [Binary32.value, Binary32.dyadic, Option.some.injEq, hu]
  push_cast
  field_simp
  ring

set_option maxRecDepth 10000 in
/-- The model rounds as binary32 does: `0.1f` is `13421773 / 2 ^ 27`, `0.1f + 0.2f` is
`5033165 / 2 ^ 24`, the integer `2 ^ 24 + 1` rounds to `2 ^ 24` and `2 ^ 24 + 3` to
`2 ^ 24 + 4`, `1e-45f` is the least positive `float`, `3.4028235e38f` is the largest
finite one and twice that overflows. -/
theorem Binary32.round_examples :
    (0.1 : Binary32) = Binary32.dyadic 13421773 27 ∧
    (0.1 + 0.2 : Binary32) = Binary32.dyadic 5033165 24 ∧
    ((16777217 : Int) : Binary32) = Binary32.dyadic 16777216 0 ∧
    ((16777219 : Int) : Binary32) = Binary32.dyadic 16777220 0 ∧
    (1e-45 : Binary32) = Binary32.dyadic 1 149 ∧
    (3.4028235e38 : Binary32) = .finite (16777215 * 2 ^ 253 : Nat) ∧
    (3.4028235e38 * 2 : Binary32) = .nonFinite := by
  refine ⟨?_, ?_, ?_, ?_, ?_, ?_, ?_⟩ <;> decide

/-! ## Theorems: pawn placement -/

theorem castRange (n : Nat) :
    (do let a ← List.range n; pure (a : Int)) = (List.range n).map (fun (a : Nat) => (a : Int)) := by
  simp only [List.bind_eq_flatMap, List.pure_def]
  induction List.range n with
  | nil => rfl
  | cons a l ih => simp [List.flatMap_cons, ih]

theorem staticScene_pawns {α : Type} [Add α] [Mul α] [Neg α] [Zero α] [One α]
    [OfScientific α] [IntCast α] [NatCast α] (E : Externals α) (col : Nat) (h : col < 8) :
    (staticScene E)[col]? = some (5, translate (translate Mat4.identity
      ⟨(((col : Int) - 1 : Int) : α) * 5.5, 0.0, 30.0⟩) ⟨-27.3, 0.0, 0.0⟩) ∧
    (staticScene E)[16 + col]? = some (4, translate (translate Mat4.identity
      ⟨5.0 + (((col : Int) - 1 : Int) : α) * 5.5, 0.0, 45.0⟩) ⟨-32.0, 0.0, 0.0⟩) := by
  constructor
  · unfold staticScene
    rw [castRange 8, castRange 2]
    simp only [List.map_map, List.append_assoc]
    rw [List.getElem?_append_left (by simpa using h)]
    simp only [List.getElem?_map, List.getElem?_range h, Option.map_some', Function.comp]
  · unfold staticScene
    rw [castRange 8, castRange 2]
    simp only [List.map_map, List.append_assoc]
    rw [List.getElem?_append_right (by simp; omega),
      List.getElem?_append_right (by simp; omega),
      List.getElem?_append_right (by simp; omega),
      List.getElem?_append_right (by simp; omega),
      List.getElem?_append_right (by simp; omega),
      List.getElem?_append_left (by simp; omega)]
    have e : 16 + col - 8 - 2 - 2 - 2 - 2 = col := by omega
    simp only [List.length_map, List.length_range, List.length_cons, List.length_nil, e,
      List.getElem?_map, List.getElem?_range h, Option.map_some', Function.comp]

set_option maxRecDepth 10000 in
theorem whitePawn_matrix_float (col : Nat) (h : col < 8) :
    translate (translate Mat4.identity
      ⟨(((col : Int) - 1 : Int) : Binary32) * 5.5, 0.0, 30.0⟩) ⟨-27.3, 0.0, 0.0⟩ =
      translation ⟨whitePawnX col, 0, 30⟩ := by
  interval_cases col <;> decide

set_option maxRecDepth 10000 in
theorem blackPawn_matrix_float (col : Nat) (h : col < 8) :
    translate (translate Mat4.identity
      ⟨5.0 + (((col : Int) - 1 : Int) : Binary32) * 5.5, 0.0, 45.0⟩) ⟨-32.0, 0.0, 0.0⟩ =
      translation ⟨blackPawnX col, 0, 45⟩ := by
  interval_cases col <;> decide

set_option maxRecDepth 10000 in
theorem whitePawnX_dyadic (col : Nat) (h : col < 8) :
    whitePawnX col = Binary32.dyadic (1441792 * ((col : Int) - 1) - 7156531) 18 := by
  interval_cases col <;> decide

set_option maxRecDepth 10000 in
theorem blackPawnX_dyadic (col : Nat) (h : col < 8) :
    blackPawnX col = Binary32.dyadic (11 * ((col : Int) - 1) - 54) 1 := by
  interval_cases col <;> decide

theorem whitePawnX_value (col : Nat) (h : col < 8) :
    (whitePawnX col).value = some (((col : ℚ) - 1) * 5.5 - 7156531 / 262144) := by
  rw [whitePawnX_dyadic col h, Binary32.value_dyadic _ _ (by omega)]
  congr 1
  push_cast
  norm_num
  ring

theorem blackPawnX_value (col : Nat) (h : col < 8) :
    (blackPawnX col).value = some (5 + ((col : ℚ) - 1) * 5.5 - 32) := by
  rw [blackPawnX_dyadic col h, Binary32.value_dyadic _ _ (by omega)]
  congr 1
  push_cast
  norm_num
  ring

set_option maxRecDepth 10000 in
theorem float_constants :
    (0 : Binary32).value = some 0 ∧ (1 : Binary32).value = some 1 ∧
    (30 : Binary32).value = some 30 ∧ (45 : Binary32).value = some 45 ∧
    (5.5 : Binary32).value = some 5.5 ∧
    (27.3 : Binary32).value = some (7156531 / 262144) := by
  have h0 : (0 : Binary32) = Binary32.dyadic 0 0 := by decide
  have h1 : (1 : Binary32) = Binary32.dyadic 1 0 := by decide
  have h30 : (30 : Binary32) = Binary32.dyadic 30 0 := by decide
  have h45 : (45 : Binary32) = Binary32.dyadic 45 0 := by decide
  have h55 : (5.5 : Binary32) = Binary32.dyadic 11 1 := by decide
  have h273 : (27.3 : Binary32) = Binary32.dyadic 7156531 18 := by decide
  rw [h0, h1, h30, h45, h55, h273]
  simp only [Binary32.value_dyadic _ _ (by omega : (0 : Nat) ≤ 149),
    Binary32.value_dyadic _ _ (by omega : (1 : Nat) ≤ 149),
    Binary32.value_dyadic _ _ (by omega : (18 : Nat) ≤ 149)]
  norm_num

theorem drawPieces_pawns (E : Externals Binary32) (P V : Mat4 Binary32)
    (chessPieces : List (ChessPiece Binary32)) (h : 12 ≤ chessPieces.length) :
    ∃ s, drawPieces E P V chessPieces = some s ∧
      ∀ col, col < 8 →
        (placements s.calls)[col]? = some (5, translation ⟨whitePawnX col, 0, 30⟩) ∧
        (placements s.calls)[16 + col]? = some (4, translation ⟨blackPawnX col, 0, 45⟩) := by
  obtain ⟨s, hs, -, hp⟩ := drawPieces_some E P V chessPieces h
  refine ⟨s, hs, ?_⟩
  intro col hcol
  obtain ⟨hw, hb⟩ := staticScene_pawns E col hcol
  rw [hp, hw, hb, whitePawn_matrix_float col hcol, blackPawn_matrix_float col hcol]
  exact ⟨rfl, rfl⟩

theorem translate_identity {α : Type} [Field α] (a : Vec3 α) :
    translate Mat4.identity a = translation a := by
  simp [translate, Mat4.identity, translation, Vec4.add, Vec4.scale]

theorem translate_translation {α : Type} [Field α] (a b : Vec3 α) :
    translate (translation a) b = translation ⟨a.x + b.x, a.y + b.y, a.z + b.z⟩ := by
  simp [translate, translation, Vec4.add, Vec4.scale, add_comm]

theorem whitePawn_matrix {α : Type} [Field α] (col : Nat) :
    translate (translate Mat4.identity
      ⟨(((col : Int) - 1 : Int) : α) * 5.5, 0.0, 30.0⟩) ⟨-27.3, 0.0, 0.0⟩ =
      translation (whitePawnPosition col) := by
  rw [translate_identity, translate_translation]
  simp only [whitePawnPosition]
  congr 2
  · push_cast
    ring
  · norm_num
  · norm_num

theorem blackPawn_matrix {α : Type} [Field α] (col : Nat) :
    translate (translate Mat4.identity
      ⟨5.0 + (((col : Int) - 1 : Int) : α) * 5.5, 0.0, 45.0⟩) ⟨-32.0, 0.0, 0.0⟩ =
      translation (blackPawnPosition col) := by
  rw [translate_identity, translate_translation]
  simp only [blackPawnPosition]
  congr 2
  · push_cast
    norm_num
    ring
  · norm_num
  · norm_num

/-- Pawn placement over exact arithmetic, which the `float` of the program is not: were
every literal and every sum exact, then in every frame (given at least twelve pieces)
and for every column `col` in 0..7 the pawn of piece 5 would be rendered with the pure
translation by `((col - 1) * 5.5 - 27.3, 0, 30)` and that of piece 4 with the pure
translation by `(5 + (col - 1) * 5.5 - 32, 0, 45)`. -/
theorem pawn_placement_exact {α : Type} [LinearOrderedField α] (E : Externals α)
    (inp : FrameInput α) (c : Controls α) (chessPieces : StdVector (ChessPiece α))
    (h : 12 ≤ chessPieces.elems.length) :
    ∃ trace c' result, frame E inp c chessPieces = some (trace, c', result) ∧
      ∀ col, col < 8 →
        (placements trace.pieceCalls)[col]? =
          some (5, translation (whitePawnPosition col)) ∧
        (placements trace.pieceCalls)[16 + col]? =
          some (4, translation (blackPawnPosition col)) := by
  obtain ⟨trace, result, hf, -, hp⟩ := frame_some E inp c chessPieces h
  refine ⟨trace, _, result, hf, ?_⟩
  intro col hcol
  obtain ⟨hw, hb⟩ := staticScene_pawns E col hcol
  rw [hp, hw, hb, whitePawn_matrix, blackPawn_matrix]
  exact ⟨rfl, rfl⟩

/-- C14 (counterexample). In `float` arithmetic the pawn of piece 5 in column 1 is
rendered with `x = -7156531 / 262144`, the `float` nearest to `-27.3`, and not with
`x = (1 - 1) * 5.5 - 27.3`. -/
theorem pawn_x_not_exact :
    ∃ s m x,
      drawPieces floatExternals Mat4.identity Mat4.identity twelveFloatPieces = some s ∧
      (placements s.calls)[1]? = some (5, m) ∧ m.c3.x.value = some x ∧
      x = -7156531 / 262144 ∧ x ≠ ((1 : ℚ) - 1) * 5.5 - 27.3 := by
  obtain ⟨s, hs, hp⟩ := drawPieces_pawns floatExternals Mat4.identity Mat4.identity
    twelveFloatPieces (by decide)
  refine ⟨s, translation ⟨whitePawnX 1, 0, 30⟩, -7156531 / 262144, hs,
    (hp 1 (by omega)).1, ?_, rfl, by norm_num⟩
  show (whitePawnX 1).value = _
  rw [whitePawnX_value 1 (by omega)]
  norm_num

/-- C14 (amended). Hard-coded pawn placement, in `float` arithmetic.  Given at least
twelve pieces, for every column `col` in 0..7 the pawn of piece 5 is rendered with the
pure translation by `(x, 0, 30)` where `x` is the `float` sum of its two translate
calls, `-27.3f + (col - 1) * 5.5f`, whose value is `(col - 1) * 5.5 - 7156531 / 262144`
(`7156531 / 262144` being the value of `27.3f`), and the pawn of piece 4 with the pure
translation by `(5 + (col - 1) * 5.5 - 32, 0, 45)`; so the eight pawns of a colour have
the same `y` and `z`, and consecutive pawns are exactly 5.5 apart in `x`. -/
theorem pawn_placement_float (E : Externals Binary32) (P V : Mat4 Binary32)
    (chessPieces : List (ChessPiece Binary32)) (h : 12 ≤ chessPieces.length) :
    ∃ s, drawPieces E P V chessPieces = some s ∧
      (∀ col, col < 8 →
        (placements s.calls)[col]? = some (5, translation ⟨whitePawnX col, 0, 30⟩) ∧
        (placements s.calls)[16 + col]? = some (4, translation ⟨blackPawnX col, 0, 45⟩) ∧
        (whitePawnX col).value = some (((col : ℚ) - 1) * 5.5 - 7156531 / 262144) ∧
        (blackPawnX col).value = some (5 + ((col : ℚ) - 1) * 5.5 - 32)) ∧
      (∀ col, col < 7 → ∃ a b c d : ℚ,
        (whitePawnX col).value = some a ∧ (whitePawnX (col + 1)).value = some b ∧
        b - a = 5.5 ∧
        (blackPawnX col).value = some c ∧ (blackPawnX (col + 1)).value = some d ∧
        d - c = 5.5) ∧
      (0 : Binary32).value = some 0 ∧ (1 : Binary32).value = some 1 ∧
      (30 : Binary32).value = some 30 ∧ (45 : Binary32).value = some 45 ∧
      (5.5 : Binary32).value = some 5.5 ∧
      (27.3 : Binary32).value = some (7156531 / 262144) := by
  obtain ⟨s, hs, hp⟩ := drawPieces_pawns E P V chessPieces h
  refine ⟨s, hs, ?_, ?_, float_constants⟩
  · intro col hcol
    exact ⟨(hp col hcol).1, (hp col hcol).2, whitePawnX_value col hcol,
      blackPawnX_value col hcol⟩
  · intro col hcol
    refine ⟨_, _, _, _, whitePawnX_value col (by omega), whitePawnX_value (col + 1) (by omega),
      ?_, blackPawnX_value col (by omega), blackPawnX_value (col + 1) (by omega), ?_⟩
    · push_cast
      ring
    · push_cast
      ring

/-- Witness for C14: twelve default pieces, drawn with identity matrices. -/
theorem pawn_placement_float_witness :
    12 ≤ twelveFloatPieces.length ∧
    ∃ s, drawPieces floatExternals Mat4.identity Mat4.identity twelveFloatPieces = some s ∧
      ∀ col, col < 8 →
        (placements s.calls)[col]? = some (5, translation ⟨whitePawnX col, 0, 30⟩) ∧
        (placements s.calls)[16 + col]? = some (4, translation ⟨blackPawnX col, 0, 45⟩) :=
  have h := pawn_placement_float floatExternals Mat4.identity Mat4.identity
    twelveFloatPieces (by decide)
  ⟨by decide, h.imp fun _ hs =>
    ⟨hs.1, fun col hcol => ⟨(hs.2.1 col hcol).1, (hs.2.1 col hcol).2.1⟩⟩⟩
end ChessGame
